import Mathlib

/-!
# Verification of the Map_researcher entity-resolution core

This file gives a shallow embedding, in Lean 4, of the duplicate-detection,
similarity-scoring, geographic-distance, temporal-pattern and risk-scoring
routines of the Map_researcher repository, and proves (or refutes) the
specification claims about them.

Modelling conventions:
* Python strings are `List Char`; `str.lower()` is `List.map Char.toLower`,
  `str.strip()` trims whitespace from both ends, `x in s` is substring test.
* Python floats are modelled as exact arithmetic: `ℚ` for purely algebraic
  computations (string similarity, scores) and `ℝ` where trigonometry is
  involved (haversine distances).  Floating-point rounding is outside the
  model.
* Python `dict.get` with optional keys is modelled with `Option` fields;
  Python truthiness (`if not x`) maps empty strings/lists and `None`/`0`
  to `false`.
* `math.sqrt` and `math.asin` raise `ValueError` outside their domains; they
  are modelled as `Option`-valued functions where domain errors matter.
-/

/-- Characters of a string literal, used for Python string constants. -/
def chars (s : String) : List Char := s.toList

/-- `str.lower()` from Python, one character at a time. -/
def pyLower (s : List Char) : List Char := s.map Char.toLower

/-- `str.strip()` from Python: remove leading and trailing whitespace. -/
def pyStrip (s : List Char) : List Char :=
  ((s.dropWhile Char.isWhitespace).reverse.dropWhile Char.isWhitespace).reverse

/-- Helper for the Levenshtein recurrence: given `x` and the distance
function `fxs = lev xs ·` for the tail `xs`, compute `lev (x :: xs) ·`.
This is the column-by-column recurrence of the dynamic-programming tables
built by `_calculate_string_similarity` in `search_module.py`,
`violation_detection.py`, `google_maps_analyzer.py` and
`pattern_discovery.py` (deletion, insertion, substitution, unit costs). -/
def levCons (x : Char) (fxs : List Char → ℕ) : List Char → ℕ
  | [] => fxs [] + 1
  | y :: ys =>
      min (fxs (y :: ys) + 1)
        (min (levCons x fxs ys + 1) (fxs ys + if x = y then 0 else 1))

/-- Levenshtein edit distance with unit insert/delete/substitute costs,
the value `dist[rows-1][cols-1]` of the DP matrix computed by the
`_calculate_string_similarity` implementations. -/
def lev : List Char → List Char → ℕ
  | [], ys => ys.length
  | x :: xs, ys => levCons x (lev xs) ys

theorem lev_nil_left (ys : List Char) : lev [] ys = ys.length := rfl

theorem lev_nil_right (xs : List Char) : lev xs [] = xs.length := by
  induction xs with
  | nil => rfl
  | cons x xs ih => simp [lev, levCons, ih]

theorem lev_cons_cons (x y : Char) (xs ys : List Char) :
    lev (x :: xs) (y :: ys) =
      min (lev xs (y :: ys) + 1)
        (min (lev (x :: xs) ys + 1) (lev xs ys + if x = y then 0 else 1)) := by
  rfl

/-- The Levenshtein distance never exceeds the longer length. -/
theorem lev_le_max (xs ys : List Char) : lev xs ys ≤ max xs.length ys.length := by
  induction xs generalizing ys with
  | nil => simp [lev_nil_left]
  | cons x xs ihx =>
    cases ys with
    | nil => simp [lev_nil_right]
    | cons y ys =>
      rw [lev_cons_cons]
      have hsub : lev xs ys + (if x = y then 0 else 1) ≤ lev xs ys + 1 := by
        split <;> omega
      have hih := ihx ys
      have : min (lev xs (y :: ys) + 1)
          (min (lev (x :: xs) ys + 1) (lev xs ys + if x = y then 0 else 1)) ≤
            lev xs ys + 1 :=
        le_trans (le_trans (min_le_right _ _) (min_le_right _ _)) hsub
      simp only [List.length_cons]
      omega

/-- `_calculate_string_similarity` from `src/search_module.py` (lines
590–634): lower-case both strings, run the DP, and return
`1 - dist / max_len`, with `1.0` when both strings are empty. -/
def searchStringSimilarity (str1 str2 : List Char) : ℚ :=
  let s1 := pyLower str1
  let s2 := pyLower str2
  let maxLen := max s1.length s2.length
  if maxLen = 0 then 1
  else 1 - (lev s1 s2 : ℚ) / (maxLen : ℚ)

/-- `_calculate_string_similarity` from `src/violation_detection.py` (lines
2006–2050): identical to the `search_module` version except for the
leading `if not str1 or not str2: return 0.0` guard. -/
def violationStringSimilarity (str1 str2 : List Char) : ℚ :=
  if str1 = [] ∨ str2 = [] then 0
  else
    let s1 := pyLower str1
    let s2 := pyLower str2
    let maxLen := max s1.length s2.length
    if maxLen = 0 then 1
    else 1 - (lev s1 s2 : ℚ) / (maxLen : ℚ)

theorem pyLower_length (s : List Char) : (pyLower s).length = s.length := by
  simp [pyLower]

/-- Shared bound: the similarity formula value lies in `[0,1]` whenever the
maximal length is positive. -/
theorem similarity_formula_bounds (s1 s2 : List Char) (h : 0 < max s1.length s2.length) :
    0 ≤ 1 - (lev s1 s2 : ℚ) / ((max s1.length s2.length : ℕ) : ℚ) ∧
      1 - (lev s1 s2 : ℚ) / ((max s1.length s2.length : ℕ) : ℚ) ≤ 1 := by
  have hm : (0 : ℚ) < ((max s1.length s2.length : ℕ) : ℚ) := by exact_mod_cast h
  constructor
  · have hle : (lev s1 s2 : ℚ) ≤ ((max s1.length s2.length : ℕ) : ℚ) := by
      exact_mod_cast lev_le_max s1 s2
    have : (lev s1 s2 : ℚ) / ((max s1.length s2.length : ℕ) : ℚ) ≤ 1 :=
      (div_le_one hm).mpr hle
    linarith
  · have : (0 : ℚ) ≤ (lev s1 s2 : ℚ) / ((max s1.length s2.length : ℕ) : ℚ) :=
      div_nonneg (by positivity) (le_of_lt hm)
    linarith

theorem max_len_ne_zero {s1 s2 : List Char} (h : ¬(s1 = [] ∧ s2 = [])) :
    ¬ max s1.length s2.length = 0 := by
  rcases Classical.not_and_iff_or_not_not.mp h with h1 | h1 <;>
    · have := List.length_pos.mpr h1
      omega

theorem searchSim_eq_formula (s1 s2 : List Char) (h : ¬(s1 = [] ∧ s2 = [])) :
    searchStringSimilarity s1 s2 =
      1 - (lev (pyLower s1) (pyLower s2) : ℚ) / ((max s1.length s2.length : ℕ) : ℚ) := by
  simp only [searchStringSimilarity, pyLower_length]
  rw [if_neg (max_len_ne_zero h)]

theorem searchSim_left_nil (s2 : List Char) (h2 : s2 ≠ []) :
    searchStringSimilarity [] s2 = 0 := by
  have hlen : 0 < s2.length := List.length_pos.mpr h2
  rw [searchSim_eq_formula [] s2 (by simp [h2])]
  have h1 : pyLower [] = [] := rfl
  rw [h1, lev_nil_left, pyLower_length]
  rw [List.length_nil, max_eq_right (Nat.zero_le _), div_self (by exact_mod_cast hlen.ne')]
  norm_num

theorem searchSim_right_nil (s1 : List Char) (h1 : s1 ≠ []) :
    searchStringSimilarity s1 [] = 0 := by
  have hlen : 0 < s1.length := List.length_pos.mpr h1
  rw [searchSim_eq_formula s1 [] (by simp [h1])]
  have h2 : pyLower [] = [] := rfl
  rw [h2, lev_nil_right, pyLower_length]
  rw [List.length_nil, max_eq_left (Nat.zero_le _), div_self (by exact_mod_cast hlen.ne')]
  norm_num

theorem violationSim_eq_searchSim (s1 s2 : List Char) (h : ¬(s1 = [] ∧ s2 = [])) :
    violationStringSimilarity s1 s2 = searchStringSimilarity s1 s2 := by
  by_cases h1 : s1 = []
  · have h2 : s2 ≠ [] := fun hc => h ⟨h1, hc⟩
    subst h1
    rw [searchSim_left_nil s2 h2]
    simp [violationStringSimilarity]
  · by_cases h2 : s2 = []
    · subst h2
      rw [searchSim_right_nil s1 h1]
      simp [violationStringSimilarity, h1]
    · simp only [violationStringSimilarity, searchStringSimilarity, if_neg (by tauto : ¬(s1 = [] ∨ s2 = []))]

theorem searchSim_bounds (s1 s2 : List Char) (h : ¬(s1 = [] ∧ s2 = [])) :
    0 ≤ searchStringSimilarity s1 s2 ∧ searchStringSimilarity s1 s2 ≤ 1 := by
  rw [searchSim_eq_formula s1 s2 h]
  have hpos : 0 < max (pyLower s1).length (pyLower s2).length := by
    simp only [pyLower_length]
    exact Nat.pos_of_ne_zero (max_len_ne_zero h)
  have := similarity_formula_bounds (pyLower s1) (pyLower s2) hpos
  simpa only [pyLower_length] using this

/-- C4: for inputs that are not both empty, both `_calculate_string_similarity`
implementations (`src/search_module.py:590` and
`src/violation_detection.py:2006`) return
`1 − levenshtein(lower a, lower b) / max(len a, len b)`, and the result lies
in the closed interval `[0,1]`. -/
theorem string_similarity_is_normalized_levenshtein (a b : List Char)
    (h : ¬(a = [] ∧ b = [])) :
    searchStringSimilarity a b =
        1 - (lev (pyLower a) (pyLower b) : ℚ) / ((max a.length b.length : ℕ) : ℚ) ∧
      violationStringSimilarity a b =
        1 - (lev (pyLower a) (pyLower b) : ℚ) / ((max a.length b.length : ℕ) : ℚ) ∧
      0 ≤ searchStringSimilarity a b ∧ searchStringSimilarity a b ≤ 1 ∧
      0 ≤ violationStringSimilarity a b ∧ violationStringSimilarity a b ≤ 1 := by
  have he := searchSim_eq_formula a b h
  have hv := violationSim_eq_searchSim a b h
  have hb := searchSim_bounds a b h
  exact ⟨he, hv.trans he, hb.1, hb.2, hv ▸ hb.1, hv ▸ hb.2⟩

/-- Witness for C4 at the concrete pair `("abc", "abd")`. -/
theorem string_similarity_is_normalized_levenshtein_witness :
    ¬(chars "abc" = [] ∧ chars "abd" = []) ∧
      0 ≤ searchStringSimilarity (chars "abc") (chars "abd") := by
  refine ⟨by decide, ?_⟩
  exact (string_similarity_is_normalized_levenshtein (chars "abc") (chars "abd")
    (by decide)).2.2.1

/-- C10: the two duplicated `_calculate_string_similarity` implementations
agree on every input pair except the empty–empty pair, where the
`search_module` version returns `1.0` and the `violation_detection` version
returns `0.0`. -/
theorem string_similarity_impls_agree_except_empty :
    (∀ a b : List Char, ¬(a = [] ∧ b = []) →
        violationStringSimilarity a b = searchStringSimilarity a b) ∧
      searchStringSimilarity [] [] = 1 ∧ violationStringSimilarity [] [] = 0 := by
  refine ⟨violationSim_eq_searchSim, ?_, ?_⟩
  · simp [searchStringSimilarity, pyLower]
  · simp [violationStringSimilarity]

/-- Witness for C10 at the concrete pair `("a", "b")`. -/
theorem string_similarity_impls_agree_except_empty_witness :
    violationStringSimilarity (chars "a") (chars "b") =
      searchStringSimilarity (chars "a") (chars "b") :=
  string_similarity_impls_agree_except_empty.1 (chars "a") (chars "b") (by decide)

/-! ## Geographic distance (`_haversine_distance`)

The function appears verbatim in `src/search_module.py:432`,
`src/violation_detection.py:1061`, `src/data_discovery.py:180`,
`src/google_maps_analyzer.py:522` and `src/pattern_discovery.py:195`:
convert to radians, compute
`a = sin(dlat/2)**2 + cos(lat1)*cos(lat2)*sin(dlon/2)**2`,
`c = 2*asin(sqrt(a))`, return `c * 6371`.  There is no clamp on the
argument of `asin(sqrt(a))`. -/

/-- `math.radians`: degrees to radians. -/
noncomputable def radians (x : ℝ) : ℝ := x * Real.pi / 180

/-- The haversine intermediate `a`, exactly as computed by the source. -/
noncomputable def havA (lat1 lon1 lat2 lon2 : ℝ) : ℝ :=
  Real.sin ((radians lat2 - radians lat1) / 2) ^ 2 +
    Real.cos (radians lat1) * Real.cos (radians lat2) *
      Real.sin ((radians lon2 - radians lon1) / 2) ^ 2

/-- The haversine distance `2 * asin(sqrt(a)) * 6371`, with `math.asin` and
`math.sqrt` read as their total real counterparts. -/
noncomputable def haversineDistance (lat1 lon1 lat2 lon2 : ℝ) : ℝ :=
  2 * Real.arcsin (Real.sqrt (havA lat1 lon1 lat2 lon2)) * 6371

/-- `math.sqrt`, which raises `ValueError` on negative input. -/
noncomputable def sqrtChecked (x : ℝ) : Option ℝ :=
  if 0 ≤ x then some (Real.sqrt x) else none

/-- `math.asin`, which raises `ValueError` outside `[-1, 1]`. -/
noncomputable def asinChecked (x : ℝ) : Option ℝ :=
  if -1 ≤ x ∧ x ≤ 1 then some (Real.arcsin x) else none

/-- The haversine computation with the domain checks of `math.sqrt` and
`math.asin` made explicit: `none` models a `ValueError`. -/
noncomputable def haversineChecked (lat1 lon1 lat2 lon2 : ℝ) : Option ℝ :=
  (sqrtChecked (havA lat1 lon1 lat2 lon2)).bind fun s =>
    (asinChecked s).map fun halfC => 2 * halfC * 6371

theorem hav_core (x y d : ℝ) :
    Real.sin ((y - x) / 2) ^ 2 + Real.cos x * Real.cos y * Real.sin (d / 2) ^ 2 =
      (1 - (Real.sin x * Real.sin y + Real.cos x * Real.cos y * Real.cos d)) / 2 := by
  have e1 : 2 * ((y - x) / 2) = y - x := by ring
  have h1 := Real.sin_sq_eq_half_sub ((y - x) / 2)
  rw [e1] at h1
  have e2 : 2 * (d / 2) = d := by ring
  have h2 := Real.sin_sq_eq_half_sub (d / 2)
  rw [e2] at h2
  rw [h1, h2, Real.cos_sub]
  ring

theorem sin_cos_inner_le_one (x y d : ℝ) :
    Real.sin x * Real.sin y + Real.cos x * Real.cos y * Real.cos d ≤ 1 := by
  have px := Real.sin_sq_add_cos_sq x
  have py := Real.sin_sq_add_cos_sq y
  have hd1 := Real.neg_one_le_cos d
  have hd2 := Real.cos_le_one d
  nlinarith [sq_nonneg (Real.sin x - Real.sin y),
    sq_nonneg (Real.cos x - Real.cos y * Real.cos d),
    mul_nonneg (sq_nonneg (Real.cos y)) (by nlinarith : (0:ℝ) ≤ 1 - Real.cos d ^ 2)]

theorem neg_one_le_sin_cos_inner (x y d : ℝ) :
    -1 ≤ Real.sin x * Real.sin y + Real.cos x * Real.cos y * Real.cos d := by
  have px := Real.sin_sq_add_cos_sq x
  have py := Real.sin_sq_add_cos_sq y
  have hd1 := Real.neg_one_le_cos d
  have hd2 := Real.cos_le_one d
  nlinarith [sq_nonneg (Real.sin x + Real.sin y),
    sq_nonneg (Real.cos x + Real.cos y * Real.cos d),
    mul_nonneg (sq_nonneg (Real.cos y)) (by nlinarith : (0:ℝ) ≤ 1 - Real.cos d ^ 2)]

/-- The haversine intermediate always lies in `[0,1]` in exact real
arithmetic, for arbitrary (even out-of-range) coordinate inputs. -/
theorem havA_mem_unitInterval (lat1 lon1 lat2 lon2 : ℝ) :
    0 ≤ havA lat1 lon1 lat2 lon2 ∧ havA lat1 lon1 lat2 lon2 ≤ 1 := by
  have hc := hav_core (radians lat1) (radians lat2) (radians lon2 - radians lon1)
  have h1 := sin_cos_inner_le_one (radians lat1) (radians lat2)
    (radians lon2 - radians lon1)
  have h2 := neg_one_le_sin_cos_inner (radians lat1) (radians lat2)
    (radians lon2 - radians lon1)
  unfold havA
  rw [hc]
  constructor <;> linarith

theorem sqrt_havA_le_one (lat1 lon1 lat2 lon2 : ℝ) :
    Real.sqrt (havA lat1 lon1 lat2 lon2) ≤ 1 := by
  rw [show (1:ℝ) = Real.sqrt 1 by rw [Real.sqrt_one]]
  exact Real.sqrt_le_sqrt (havA_mem_unitInterval lat1 lon1 lat2 lon2).2

theorem haversineDistance_nonneg (lat1 lon1 lat2 lon2 : ℝ) :
    0 ≤ haversineDistance lat1 lon1 lat2 lon2 := by
  unfold haversineDistance
  have h0 : 0 ≤ Real.arcsin (Real.sqrt (havA lat1 lon1 lat2 lon2)) :=
    Real.arcsin_nonneg.mpr (Real.sqrt_nonneg _)
  nlinarith

theorem haversineChecked_eq_some (lat1 lon1 lat2 lon2 : ℝ) :
    haversineChecked lat1 lon1 lat2 lon2 =
      some (haversineDistance lat1 lon1 lat2 lon2) := by
  have hm := havA_mem_unitInterval lat1 lon1 lat2 lon2
  have hs1 : (0:ℝ) ≤ Real.sqrt (havA lat1 lon1 lat2 lon2) := Real.sqrt_nonneg _
  have hs2 := sqrt_havA_le_one lat1 lon1 lat2 lon2
  unfold haversineChecked sqrtChecked asinChecked
  rw [if_pos hm.1, Option.some_bind, if_pos ⟨by linarith, hs2⟩, Option.map_some']
  rfl

/-- C6: in exact real arithmetic the argument handed to `asin` (namely
`sqrt(a)`) lies in `[0,1]` for every pair of coordinate inputs, including
near-identical and antipodal points, so the computation (with the domain
checks of `math.sqrt`/`math.asin` modelled explicitly) raises no domain
error and returns a nonnegative distance scaled by the Earth radius 6371 km.
The source contains no explicit clamp; the invariant holds because `a` is
provably within `[0,1]` already.  Floating-point rounding is outside this
model. -/
theorem haversine_asin_argument_safe (lat1 lon1 lat2 lon2 : ℝ) :
    0 ≤ Real.sqrt (havA lat1 lon1 lat2 lon2) ∧
      Real.sqrt (havA lat1 lon1 lat2 lon2) ≤ 1 ∧
      haversineChecked lat1 lon1 lat2 lon2 =
        some (haversineDistance lat1 lon1 lat2 lon2) ∧
      0 ≤ haversineDistance lat1 lon1 lat2 lon2 :=
  ⟨Real.sqrt_nonneg _, sqrt_havA_le_one lat1 lon1 lat2 lon2,
    haversineChecked_eq_some lat1 lon1 lat2 lon2,
    haversineDistance_nonneg lat1 lon1 lat2 lon2⟩

/-- On a common meridian the haversine distance is exactly
`6371 * |Δlat in radians|` (needed to evaluate the deduplication routines on
concrete coordinates). -/
theorem haversine_meridian (lat1 lat2 lon : ℝ)
    (h : |radians lat2 - radians lat1| ≤ Real.pi) :
    haversineDistance lat1 lon lat2 lon = 6371 * |radians lat2 - radians lat1| := by
  have habs : |(radians lat2 - radians lat1) / 2| ≤ Real.pi / 2 := by
    rw [abs_div, abs_of_pos (by norm_num : (0:ℝ) < 2)]
    linarith
  have hpi := Real.pi_pos
  have hsin : |Real.sin ((radians lat2 - radians lat1) / 2)| =
      Real.sin |(radians lat2 - radians lat1) / 2| := by
    rcases abs_cases ((radians lat2 - radians lat1) / 2) with ⟨he, hpos⟩ | ⟨he, hneg⟩
    · rw [he]
      exact abs_of_nonneg (Real.sin_nonneg_of_nonneg_of_le_pi hpos
        (by rw [he] at habs; linarith))
    · rw [he, Real.sin_neg]
      rw [abs_of_nonpos (Real.sin_nonpos_of_nonnpos_of_neg_pi_le (le_of_lt hneg)
        (by rw [he] at habs; linarith))]
  unfold haversineDistance havA
  rw [sub_self, zero_div, Real.sin_zero]
  norm_num
  rw [Real.sqrt_sq_eq_abs, hsin, Real.arcsin_sin
    (by linarith [abs_nonneg ((radians lat2 - radians lat1) / 2)]) habs]
  rw [abs_div, abs_of_pos (by norm_num : (0:ℝ) < 2)]
  ring

theorem haversine_meridian_deg (lat1 lat2 lon : ℝ) (h : |lat2 - lat1| ≤ 180) :
    haversineDistance lat1 lon lat2 lon =
      6371 * (|lat2 - lat1| * Real.pi / 180) := by
  have hpi := Real.pi_pos
  have h1 : radians lat2 - radians lat1 = (lat2 - lat1) * Real.pi / 180 := by
    unfold radians; ring
  have h2 : |radians lat2 - radians lat1| = |lat2 - lat1| * Real.pi / 180 := by
    rw [h1, abs_div, abs_mul, abs_of_pos hpi, abs_of_pos (by norm_num : (0:ℝ) < 180)]
  rw [haversine_meridian lat1 lat2 lon (by
    rw [h2]
    calc |lat2 - lat1| * Real.pi / 180 ≤ 180 * Real.pi / 180 := by
          have := abs_nonneg (lat2 - lat1)
          gcongr
      _ = Real.pi := by ring), h2]

theorem meridian_dist_lt (lat1 lat2 lon : ℝ) (h : |lat2 - lat1| ≤ 0.0003) :
    haversineDistance lat1 lon lat2 lon < 0.05 := by
  rw [haversine_meridian_deg lat1 lat2 lon (by linarith)]
  have hmul : |lat2 - lat1| * Real.pi ≤ 0.0003 * 3.15 :=
    mul_le_mul h (le_of_lt Real.pi_lt_d2) Real.pi_pos.le (by norm_num)
  linarith

theorem meridian_dist_ge (lat1 lat2 lon : ℝ) (h1 : 0.0006 ≤ |lat2 - lat1|)
    (h2 : |lat2 - lat1| ≤ 180) :
    0.05 ≤ haversineDistance lat1 lon lat2 lon := by
  rw [haversine_meridian_deg lat1 lat2 lon h2]
  have hmul : 0.0006 * 3 ≤ |lat2 - lat1| * Real.pi :=
    mul_le_mul h1 (le_of_lt Real.pi_gt_three) (by norm_num) (abs_nonneg _)
  linarith

/-- Jordan-type bound used to evaluate the haversine at non-meridian pairs:
`arcsin x ≤ (π/2)·x` on `[0,1]`. -/
theorem arcsin_le_pi_div_two_mul (x : ℝ) (h0 : 0 ≤ x) (h1 : x ≤ 1) :
    Real.arcsin x ≤ Real.pi / 2 * x := by
  have hpi := Real.pi_pos
  have hy0 : 0 ≤ Real.arcsin x := Real.arcsin_nonneg.mpr h0
  have hy2 := Real.arcsin_le_pi_div_two x
  have hs : Real.sin (Real.arcsin x) = x := Real.sin_arcsin (by linarith) h1
  have hj := Real.mul_le_sin hy0 hy2
  rw [hs] at hj
  rw [div_mul_eq_mul_div, div_le_iff₀ hpi] at hj
  nlinarith

theorem havA_le_quad (lat1 lon1 lat2 lon2 : ℝ) :
    havA lat1 lon1 lat2 lon2 ≤
      ((radians lat2 - radians lat1) / 2) ^ 2 +
        ((radians lon2 - radians lon1) / 2) ^ 2 := by
  have hsq : ∀ t : ℝ, Real.sin t ^ 2 ≤ t ^ 2 := by
    intro t
    have h := Real.abs_sin_le_abs (x := t)
    calc Real.sin t ^ 2 = |Real.sin t| ^ 2 := (sq_abs _).symm
      _ ≤ |t| ^ 2 := by gcongr
      _ = t ^ 2 := sq_abs _
  have h1 := hsq ((radians lat2 - radians lat1) / 2)
  have h2 := hsq ((radians lon2 - radians lon1) / 2)
  have hP : Real.cos (radians lat1) * Real.cos (radians lat2) ≤ 1 := by
    nlinarith [Real.neg_one_le_cos (radians lat1), Real.cos_le_one (radians lat1),
      Real.neg_one_le_cos (radians lat2), Real.cos_le_one (radians lat2)]
  have hs2 : (0:ℝ) ≤ Real.sin ((radians lon2 - radians lon1) / 2) ^ 2 := sq_nonneg _
  unfold havA
  nlinarith

theorem haversine_le_of_quad (lat1 lon1 lat2 lon2 B : ℝ) (hB : 0 ≤ B)
    (h : ((radians lat2 - radians lat1) / 2) ^ 2 +
          ((radians lon2 - radians lon1) / 2) ^ 2 ≤ B ^ 2) :
    haversineDistance lat1 lon1 lat2 lon2 ≤ 6371 * Real.pi * B := by
  have hpi := Real.pi_pos
  have ha := havA_mem_unitInterval lat1 lon1 lat2 lon2
  have hsq : Real.sqrt (havA lat1 lon1 lat2 lon2) ≤ B := by
    calc Real.sqrt (havA lat1 lon1 lat2 lon2)
        ≤ Real.sqrt (B ^ 2) :=
          Real.sqrt_le_sqrt (le_trans (havA_le_quad lat1 lon1 lat2 lon2) h)
      _ = B := by rw [Real.sqrt_sq hB]
  have harc := arcsin_le_pi_div_two_mul (Real.sqrt (havA lat1 lon1 lat2 lon2))
    (Real.sqrt_nonneg _) (sqrt_havA_le_one lat1 lon1 lat2 lon2)
  unfold haversineDistance
  have hstep : Real.arcsin (Real.sqrt (havA lat1 lon1 lat2 lon2)) ≤ Real.pi / 2 * B := by
    calc Real.arcsin (Real.sqrt (havA lat1 lon1 lat2 lon2))
        ≤ Real.pi / 2 * Real.sqrt (havA lat1 lon1 lat2 lon2) := harc
      _ ≤ Real.pi / 2 * B := by gcongr
  nlinarith

/-! ## Duplicate removal in `data_discovery.py` and `google_maps_analyzer.py` -/

/-- The fields of a hotel record consulted by `_remove_duplicates` and
`_is_duplicate_hotel` in `src/data_discovery.py`.  `latitude`/`longitude`
are optional and Python-falsy when `0`. -/
structure DHotel where
  name : List Char
  latitude : Option ℚ
  longitude : Option ℚ
  deriving DecidableEq

/-- Accumulator of `_remove_duplicates` (`src/data_discovery.py:136`):
the `unique_hotels` list and the `seen_names` / `seen_coords` sets
(modelled as insertion-ordered lists). -/
structure DedupState where
  unique : List DHotel
  seenNames : List (List Char)
  seenCoords : List (ℚ × ℚ)

/-- One iteration of the loop of `_remove_duplicates`: keep hotels lacking
name or truthy coordinates, drop hotels whose lowered name was seen, drop
hotels within 50 m (`dist < 0.05`) of a kept coordinate, otherwise keep and
record. -/
noncomputable def removeDupStep (st : DedupState) (hotel : DHotel) : DedupState :=
  match hotel.latitude, hotel.longitude with
  | some lat, some lng =>
      let name := pyLower hotel.name
      if name = [] ∨ lat = 0 ∨ lng = 0 then
        { st with unique := st.unique ++ [hotel] }
      else if name ∈ st.seenNames then st
      else if st.seenCoords.any fun c =>
          decide (haversineDistance (lat : ℝ) (lng : ℝ) (c.1 : ℝ) (c.2 : ℝ) < 0.05) then st
      else
        { unique := st.unique ++ [hotel], seenNames := st.seenNames ++ [name],
          seenCoords := st.seenCoords ++ [(lat, lng)] }
  | _, _ => { st with unique := st.unique ++ [hotel] }

/-- `_remove_duplicates` from `src/data_discovery.py` (lines 136–178). -/
noncomputable def removeDuplicates (hotels : List DHotel) : List DHotel :=
  (hotels.foldl removeDupStep ⟨[], [], []⟩).unique

/-- `_is_duplicate_hotel` from `src/data_discovery.py` (lines 414–451):
`False` when the hotel lacks a name or truthy coordinates; otherwise `True`
iff some existing hotel has the same lowered name, or truthy coordinates
strictly within 50 m. -/
noncomputable def isDuplicateHotel (hotel : DHotel) (existingHotels : List DHotel) : Bool :=
  match hotel.latitude, hotel.longitude with
  | some lat, some lng =>
      if pyLower hotel.name = [] ∨ lat = 0 ∨ lng = 0 then false
      else existingHotels.any fun ex =>
        (pyLower hotel.name = pyLower ex.name : Bool) ||
          (match ex.latitude, ex.longitude with
           | some elat, some elng =>
               if elat = 0 ∨ elng = 0 then false
               else decide (haversineDistance (lat : ℝ) (lng : ℝ) (elat : ℝ) (elng : ℝ) < 0.05)
           | _, _ => false)
  | _, _ => false

def hotelA : DHotel := ⟨['a'], some 10, some 10⟩
def hotelB : DHotel := ⟨['b'], some 10.0003, some 10⟩
def hotelC : DHotel := ⟨['c'], some 10.0006, some 10⟩

theorem dist_C_A_far :
    ¬ haversineDistance (10.0006 : ℝ) 10 10 10 < 0.05 := by
  apply not_lt.mpr
  apply meridian_dist_ge
  · rw [abs_sub_comm, abs_of_nonneg (by norm_num)]
    norm_num
  · rw [abs_sub_comm, abs_of_nonneg (by norm_num)]
    norm_num

theorem dist_B_A_near :
    haversineDistance (10.0003 : ℝ) 10 10 10 < 0.05 := by
  apply meridian_dist_lt
  rw [abs_sub_comm, abs_of_nonneg (by norm_num)]
  norm_num

theorem dist_A_B_near :
    haversineDistance (10 : ℝ) 10 10.0003 10 < 0.05 := by
  apply meridian_dist_lt
  rw [abs_of_nonneg (by norm_num)]
  norm_num

theorem dist_C_B_near :
    haversineDistance (10.0006 : ℝ) 10 10.0003 10 < 0.05 := by
  apply meridian_dist_lt
  rw [abs_sub_comm, abs_of_nonneg (by norm_num)]
  norm_num

/-- C1 counterexample: `_remove_duplicates` is order-dependent.  Hotels
`A=(10,10)`, `B=(10.0003,10)`, `C=(10.0006,10)` lie on one meridian with
`A–B ≈ 33 m`, `B–C ≈ 33 m`, `A–C ≈ 67 m`.  Presented as `[A, C, B]` the
routine keeps two records, presented as `[B, A, C]` it keeps one, so the
resulting partition of listings into entities depends on the input order. -/
theorem remove_duplicates_order_dependent :
    removeDuplicates [hotelA, hotelC, hotelB] = [hotelA, hotelC] ∧
      removeDuplicates [hotelB, hotelA, hotelC] = [hotelB] := by
  have b1 := dist_C_A_far
  have b2 := dist_B_A_near
  have b3 := dist_A_B_near
  have b4 := dist_C_B_near
  have q1 : ¬((10 : ℚ) = 0) := by norm_num
  have q2 : ¬((10.0003 : ℚ) = 0) := by norm_num
  have q3 : ¬((10.0006 : ℚ) = 0) := by norm_num
  have c1 : Char.toLower 'c' ≠ Char.toLower 'a' := by decide
  have c2 : Char.toLower 'b' ≠ Char.toLower 'a' := by decide
  have c3 : Char.toLower 'b' ≠ Char.toLower 'c' := by decide
  have c4 : Char.toLower 'a' ≠ Char.toLower 'b' := by decide
  have c5 : Char.toLower 'c' ≠ Char.toLower 'b' := by decide
  constructor <;>
    simp [removeDuplicates, removeDupStep, hotelA, hotelB, hotelC, pyLower,
      b1, b2, b3, b4, q1, q2, q3, c1, c2, c3, c4, c5]

/-- `_calculate_string_similarity` from `src/google_maps_analyzer.py`
(lines 536–567): guard on empty inputs, then the same DP, with the result
expressed as `1 - dist/max_len if max_len > 0 else 0`. -/
def gmStringSimilarity (str1 str2 : List Char) : ℚ :=
  if str1 = [] ∨ str2 = [] then 0
  else if 0 < max (pyLower str1).length (pyLower str2).length then
    1 - (lev (pyLower str1) (pyLower str2) : ℚ) /
      ((max (pyLower str1).length (pyLower str2).length : ℕ) : ℚ)
  else 0

/-- The fields of a place consulted by `_remove_duplicates` in
`src/google_maps_analyzer.py` (lines 471–520). -/
structure GPlace where
  placeId : List Char
  name : List Char
  latitude : Option ℚ
  longitude : Option ℚ
  deriving DecidableEq

/-- Accumulator of `google_maps_analyzer._remove_duplicates`. -/
structure GmState where
  unique : List GPlace
  seenIds : List (List Char)
  seenCoords : List (ℚ × ℚ)

/-- The trailing name-based deduplication of
`google_maps_analyzer._remove_duplicates`: reached when the place has no
fresh `place_id` and either lacks truthy coordinates or is a coordinate
duplicate (the Python loop falls through in that case because `continue`
only occurs on the non-duplicate path). -/
def gmNameBranch (st : GmState) (place : GPlace) : GmState :=
  if place.name ≠ [] then
    if st.unique.any fun ex =>
        decide (ex.name ≠ []) && decide (gmStringSimilarity place.name ex.name > 0.8) then st
    else { st with unique := st.unique ++ [place] }
  else st

/-- One iteration of `google_maps_analyzer._remove_duplicates`: a place with
an unseen truthy `place_id` is always kept; otherwise coordinates are
checked against kept coordinates within 50 m; otherwise names. -/
noncomputable def gmRemoveDupStep (st : GmState) (place : GPlace) : GmState :=
  if place.placeId ≠ [] ∧ place.placeId ∉ st.seenIds then
    { st with unique := st.unique ++ [place], seenIds := st.seenIds ++ [place.placeId] }
  else
    match place.latitude, place.longitude with
    | some lat, some lng =>
        if lat ≠ 0 ∧ lng ≠ 0 then
          if st.seenCoords.any fun c =>
              decide (haversineDistance (lat : ℝ) (lng : ℝ) (c.1 : ℝ) (c.2 : ℝ) < 0.05) then
            gmNameBranch st place
          else
            { st with unique := st.unique ++ [place], seenCoords := st.seenCoords ++ [(lat, lng)] }
        else gmNameBranch st place
    | _, _ => gmNameBranch st place

/-- `_remove_duplicates` from `src/google_maps_analyzer.py` (lines 471–520). -/
noncomputable def gmRemoveDuplicates (places : List GPlace) : List GPlace :=
  (places.foldl gmRemoveDupStep ⟨[], [], []⟩).unique

def placeP1 : GPlace := ⟨['a'], ['x'], some 24.7136, some 46.6753⟩
def placeP2 : GPlace := ⟨['b'], ['x'], some 24.7136, some 46.6753⟩

/-- C3 counterexample: two places at the *same* coordinates (0 m apart) with
identical names (string similarity 1 ≥ 0.8) are both kept — not merged into
one record — by `google_maps_analyzer._remove_duplicates`, because each
carries an unseen `place_id` and the place-id branch short-circuits the 50 m
rule. -/
theorem gm_remove_duplicates_keeps_both :
    gmRemoveDuplicates [placeP1, placeP2] = [placeP1, placeP2] ∧
      haversineDistance (24.7136 : ℝ) 46.6753 24.7136 46.6753 < 0.05 ∧
      gmStringSimilarity ['x'] ['x'] ≥ 0.8 := by
  have hx : pyLower ['x'] = ['x'] := by decide
  have hlev : lev ['x'] ['x'] = 0 := by decide
  refine ⟨?_, ?_, by simp [gmStringSimilarity, hx, hlev]; norm_num⟩
  · have hne : (['b'] : List Char) ∉ ([['a']] : List (List Char)) := by decide
    simp [gmRemoveDuplicates, gmRemoveDupStep, placeP1, placeP2, hne]
  · apply meridian_dist_lt
    rw [sub_self, abs_zero]
    norm_num

/-- C3 amended: in `data_discovery._is_duplicate_hotel`, a listing with a
nonempty name and truthy (nonzero) coordinates is declared a duplicate of
any existing listing with truthy coordinates strictly within 50 m,
regardless of name similarity and of any composite score.  (This subsumes
the spec's 50 m ∧ name-similarity ≥ 0.8 rule for such listings.) -/
theorem isDuplicateHotel_matches_within_50m
    (hotel ex : DHotel) (lst : List DHotel) (lat lng elat elng : ℚ)
    (hlat : hotel.latitude = some lat) (hlng : hotel.longitude = some lng)
    (hname : pyLower hotel.name ≠ []) (hl0 : lat ≠ 0) (hg0 : lng ≠ 0)
    (hmem : ex ∈ lst)
    (helat : ex.latitude = some elat) (helng : ex.longitude = some elng)
    (hel0 : elat ≠ 0) (heg0 : elng ≠ 0)
    (hdist : haversineDistance (lat : ℝ) (lng : ℝ) (elat : ℝ) (elng : ℝ) < 0.05) :
    isDuplicateHotel hotel lst = true := by
  unfold isDuplicateHotel
  rw [hlat, hlng]
  dsimp only
  rw [if_neg (by simp [hname, hl0, hg0])]
  rw [List.any_eq_true]
  refine ⟨ex, hmem, ?_⟩
  rw [helat, helng]
  simp [hel0, heg0, hdist]

def alNoorLatin : DHotel := ⟨chars "Al Noor Hotel", some 24.7136, some 46.6753⟩
def alNoorArabic : DHotel := ⟨chars "فندق النور", some 24.7137, some 46.6754⟩

theorem alNoor_pair_close :
    haversineDistance ((24.7137 : ℚ) : ℝ) ((46.6754 : ℚ) : ℝ)
      ((24.7136 : ℚ) : ℝ) ((46.6753 : ℚ) : ℝ) < 0.05 := by
  refine lt_of_le_of_lt
    (haversine_le_of_quad _ _ _ _ (Real.pi / 2500000) (by positivity) ?_) ?_
  · unfold radians
    push_cast
    ring_nf
    nlinarith [sq_nonneg Real.pi]
  · nlinarith [Real.pi_lt_d2, Real.pi_pos]

/-- C3 witness: the spec's cross-script example — "Al Noor Hotel" at
`(24.7136, 46.6753)` and "فندق النور" at `(24.7137, 46.6754)`, about 15 m
apart — is matched by `_is_duplicate_hotel` despite near-zero lexical
similarity. -/
theorem isDuplicateHotel_matches_within_50m_witness :
    isDuplicateHotel alNoorArabic [alNoorLatin] = true :=
  isDuplicateHotel_matches_within_50m alNoorArabic alNoorLatin [alNoorLatin]
    24.7137 46.6754 24.7136 46.6753 rfl rfl (by decide) (by norm_num) (by norm_num)
    (List.mem_singleton.mpr rfl) rfl rfl (by norm_num) (by norm_num) alNoor_pair_close

/-! ## Property similarity and grouping (`pattern_discovery.py`) -/

/-- `_calculate_string_similarity` from `src/pattern_discovery.py` (lines
152–193): empty guard, lower+strip, exact-match and substring short-circuits,
then the Levenshtein formula. -/
def patternStringSimilarity (str1 str2 : List Char) : ℚ :=
  if str1 = [] ∨ str2 = [] then 0
  else
    let s1 := pyStrip (pyLower str1)
    let s2 := pyStrip (pyLower str2)
    if s1 = s2 then 1
    else if List.IsInfix s1 s2 ∨ List.IsInfix s2 s1 then
      let shorter := if s1.length < s2.length then s1 else s2
      let longer := if s1.length < s2.length then s2 else s1
      (shorter.length : ℚ) / (longer.length : ℚ)
    else 1 - (lev s1 s2 : ℚ) / ((max s1.length s2.length : ℕ) : ℚ)

/-- Last `n` characters, Python's `p[-n:]`. -/
def lastN (n : ℕ) (l : List Char) : List Char := l.drop (l.length - n)

/-- `_calculate_phone_similarity` from `src/pattern_discovery.py` (lines
209–236): digits only, exact match 1.0, last-6 match 0.9, last-4 match 0.7,
otherwise 0. -/
def patternPhoneSimilarity (phone1 phone2 : List Char) : ℚ :=
  let p1 := phone1.filter Char.isDigit
  let p2 := phone2.filter Char.isDigit
  if p1 = [] ∨ p2 = [] then 0
  else if p1 = p2 then 1
  else if 6 ≤ min p1.length p2.length then
    if lastN 6 p1 = lastN 6 p2 then 0.9
    else if lastN 4 p1 = lastN 4 p2 then 0.7
    else 0
  else 0

/-- The fields of a property dictionary consulted by
`_calculate_property_similarity` in `src/pattern_discovery.py`.  Missing
string keys are the empty list; `owner`/`contact_name` fall back on each
other via Python `or`. -/
structure Property where
  name : List Char
  address : List Char
  latitude : Option ℚ
  longitude : Option ℚ
  phone : List Char
  owner : List Char
  contactName : List Char
  deriving DecidableEq

def emptyProperty : Property := ⟨[], [], none, none, [], [], []⟩

/-- The `similarity_scores` list of `(score, weight)` pairs built by
`_calculate_property_similarity` (`src/pattern_discovery.py:92`): name 0.4,
address 0.3, geography 0.3 (`max(0, 1 - dist/2)` over the module's own
haversine copy, lines 195–207), phone 0.4 (only when positive), owner 0.4. -/
noncomputable def propertyScores (p1 p2 : Property) : List (ℝ × ℝ) :=
  (if p1.name ≠ [] ∧ p2.name ≠ [] then
      [(((patternStringSimilarity p1.name p2.name : ℚ) : ℝ), (0.4 : ℝ))] else []) ++
  (if p1.address ≠ [] ∧ p2.address ≠ [] then
      [(((patternStringSimilarity p1.address p2.address : ℚ) : ℝ), (0.3 : ℝ))] else []) ++
  (match p1.latitude, p1.longitude, p2.latitude, p2.longitude with
   | some la1, some lo1, some la2, some lo2 =>
       if la1 ≠ 0 ∧ lo1 ≠ 0 ∧ la2 ≠ 0 ∧ lo2 ≠ 0 then
         [(max 0 (1 - haversineDistance (la1 : ℝ) (lo1 : ℝ) (la2 : ℝ) (lo2 : ℝ) / 2),
           (0.3 : ℝ))]
       else []
   | _, _, _, _ => []) ++
  (if p1.phone ≠ [] ∧ p2.phone ≠ [] ∧ 0 < patternPhoneSimilarity p1.phone p2.phone then
      [(((patternPhoneSimilarity p1.phone p2.phone : ℚ) : ℝ), (0.4 : ℝ))] else []) ++
  (let o1 := if p1.owner ≠ [] then p1.owner else p1.contactName
   let o2 := if p2.owner ≠ [] then p2.owner else p2.contactName
   if o1 ≠ [] ∧ o2 ≠ [] then
      [(((patternStringSimilarity o1 o2 : ℚ) : ℝ), (0.4 : ℝ))] else [])

/-- `_calculate_property_similarity` from `src/pattern_discovery.py` (lines
92–150): the weighted average `Σ score·weight / Σ weight` over the collected
pairs, `0.0` when no attribute pair is available. -/
noncomputable def propertySimilarity (p1 p2 : Property) : ℝ :=
  let scores := propertyScores p1 p2
  if scores ≠ [] then
    (scores.map fun sw => sw.1 * sw.2).sum / (scores.map fun sw => sw.2).sum
  else 0

theorem patternSim_bounds (s1 s2 : List Char) :
    0 ≤ patternStringSimilarity s1 s2 ∧ patternStringSimilarity s1 s2 ≤ 1 := by
  unfold patternStringSimilarity
  dsimp only
  set a := pyStrip (pyLower s1) with ha
  set b := pyStrip (pyLower s2) with hb
  split_ifs with hg heq hsub hl
  · norm_num
  · norm_num
  · have hbpos : (0:ℚ) < (b.length : ℚ) := by
      exact_mod_cast Nat.zero_lt_of_lt hl
    constructor
    · positivity
    · rw [div_le_one hbpos]
      exact_mod_cast le_of_lt hl
  · have hble : b.length ≤ a.length := le_of_not_lt hl
    have hapos : 0 < a.length := by
      rcases Nat.eq_zero_or_pos a.length with h0 | h0
      · exfalso
        have hb0 : b.length = 0 := by omega
        exact heq (by
          have h0' := List.length_eq_zero.mp h0
          have hb0' := List.length_eq_zero.mp hb0
          rw [h0', hb0'])
      · exact h0
    have hapos' : (0:ℚ) < (a.length : ℚ) := by exact_mod_cast hapos
    constructor
    · positivity
    · rw [div_le_one hapos']
      exact_mod_cast hble
  · have hne : ¬(a = [] ∧ b = []) := by
      rintro ⟨h1, h2⟩
      exact heq (h1.trans h2.symm)
    exact similarity_formula_bounds a b (Nat.pos_of_ne_zero (max_len_ne_zero hne))

theorem patternPhone_bounds (p1 p2 : List Char) :
    0 ≤ patternPhoneSimilarity p1 p2 ∧ patternPhoneSimilarity p1 p2 ≤ 1 := by
  unfold patternPhoneSimilarity
  dsimp only
  split_ifs <;> norm_num

theorem geoScore_bounds (d : ℝ) (hd : 0 ≤ d) :
    0 ≤ max 0 (1 - d / 2) ∧ max 0 (1 - d / 2) ≤ 1 :=
  ⟨le_max_left _ _, max_le (by norm_num) (by linarith)⟩

theorem mem_ite_singleton {α : Type} {c : Prop} [Decidable c] {x y : α} :
    x ∈ (if c then [y] else ([] : List α)) ↔ c ∧ x = y := by
  split_ifs with h <;> simp [h]

theorem cast_pair_bounds (q : ℚ) (w : ℝ) (h01 : 0 ≤ q ∧ q ≤ 1) (hw : 0 < w) :
    (0 ≤ (((q : ℝ)), w).1 ∧ (((q : ℝ)), w).1 ≤ 1) ∧ (0:ℝ) < (((q : ℝ)), w).2 := by
  refine ⟨⟨?_, ?_⟩, hw⟩
  · show (0:ℝ) ≤ (q:ℝ)
    exact_mod_cast h01.1
  · show ((q:ℝ)) ≤ 1
    exact_mod_cast h01.2

theorem propertyScores_bounds (p1 p2 : Property) :
    ∀ sw ∈ propertyScores p1 p2, (0 ≤ sw.1 ∧ sw.1 ≤ 1) ∧ (0:ℝ) < sw.2 := by
  intro sw hsw
  unfold propertyScores at hsw
  simp only [List.mem_append] at hsw
  rcases hsw with ((((h | h) | h) | h) | h)
  · rcases (mem_ite_singleton).mp h with ⟨_, rfl⟩
    exact cast_pair_bounds _ _ (patternSim_bounds _ _) (by norm_num)
  · rcases (mem_ite_singleton).mp h with ⟨_, rfl⟩
    exact cast_pair_bounds _ _ (patternSim_bounds _ _) (by norm_num)
  · rcases hla1 : p1.latitude with _ | la1 <;> rw [hla1] at h
    case none => simp at h
    rcases hlo1 : p1.longitude with _ | lo1 <;> rw [hlo1] at h
    case none => simp at h
    rcases hla2 : p2.latitude with _ | la2 <;> rw [hla2] at h
    case none => simp at h
    rcases hlo2 : p2.longitude with _ | lo2 <;> rw [hlo2] at h
    case none => simp at h
    rcases (mem_ite_singleton).mp h with ⟨_, rfl⟩
    have hd := haversineDistance_nonneg (la1 : ℝ) (lo1 : ℝ) (la2 : ℝ) (lo2 : ℝ)
    have hg := geoScore_bounds _ hd
    refine ⟨⟨?_, ?_⟩, by norm_num⟩
    · show (0:ℝ) ≤ max 0 (1 - haversineDistance (la1 : ℝ) (lo1 : ℝ) (la2 : ℝ) (lo2 : ℝ) / 2)
      exact hg.1
    · show max 0 (1 - haversineDistance (la1 : ℝ) (lo1 : ℝ) (la2 : ℝ) (lo2 : ℝ) / 2) ≤ 1
      exact hg.2
  · rcases (mem_ite_singleton).mp h with ⟨_, rfl⟩
    exact cast_pair_bounds _ _ (patternPhone_bounds _ _) (by norm_num)
  · rcases (mem_ite_singleton).mp h with ⟨_, rfl⟩
    exact cast_pair_bounds _ _ (patternSim_bounds _ _) (by norm_num)

theorem weighted_avg_bounds (scores : List (ℝ × ℝ))
    (h : ∀ sw ∈ scores, (0 ≤ sw.1 ∧ sw.1 ≤ 1) ∧ (0:ℝ) < sw.2) (hne : scores ≠ []) :
    0 ≤ (scores.map fun sw => sw.1 * sw.2).sum / (scores.map fun sw => sw.2).sum ∧
      (scores.map fun sw => sw.1 * sw.2).sum / (scores.map fun sw => sw.2).sum ≤ 1 := by
  have hwpos : 0 < (scores.map fun sw => sw.2).sum := by
    apply List.sum_pos
    · intro x hx
      rcases List.mem_map.mp hx with ⟨sw, hsw, rfl⟩
      exact (h sw hsw).2
    · simpa using hne
  have hnum0 : 0 ≤ (scores.map fun sw => sw.1 * sw.2).sum := by
    apply List.sum_nonneg
    intro x hx
    rcases List.mem_map.mp hx with ⟨sw, hsw, rfl⟩
    exact mul_nonneg ((h sw hsw).1).1 (le_of_lt (h sw hsw).2)
  have hle : (scores.map fun sw => sw.1 * sw.2).sum ≤ (scores.map fun sw => sw.2).sum := by
    apply List.sum_le_sum
    intro sw hsw
    calc sw.1 * sw.2 ≤ 1 * sw.2 :=
          mul_le_mul_of_nonneg_right ((h sw hsw).1).2 (le_of_lt (h sw hsw).2)
      _ = sw.2 := one_mul _
  exact ⟨div_nonneg hnum0 (le_of_lt hwpos), (div_le_one hwpos).mpr hle⟩

theorem propertySimilarity_bounds (p1 p2 : Property) :
    0 ≤ propertySimilarity p1 p2 ∧ propertySimilarity p1 p2 ≤ 1 := by
  unfold propertySimilarity
  dsimp only
  split_ifs with hne
  · exact weighted_avg_bounds _ (propertyScores_bounds p1 p2) hne
  · norm_num

theorem lev_comm (xs ys : List Char) : lev xs ys = lev ys xs := by
  induction xs generalizing ys with
  | nil => rw [lev_nil_left, lev_nil_right]
  | cons x xs ih =>
    induction ys with
    | nil => rw [lev_nil_left, lev_nil_right]
    | cons y ys ihy =>
      rw [lev_cons_cons, lev_cons_cons]
      have h1 := ih (y :: ys)
      have h2 := ihy
      have h3 := ih ys
      have hcost : (if x = y then 0 else 1) = (if y = x then 0 else 1) := by
        by_cases h : x = y
        · rw [if_pos h, if_pos h.symm]
        · rw [if_neg h, if_neg (fun hc => h hc.symm)]
      rw [h1, h2, h3, hcost]
      omega

theorem patternSim_comm (s1 s2 : List Char) :
    patternStringSimilarity s1 s2 = patternStringSimilarity s2 s1 := by
  unfold patternStringSimilarity
  dsimp only
  by_cases hg : s1 = [] ∨ s2 = []
  · rw [if_pos hg, if_pos (or_comm.mp hg)]
  · rw [if_neg hg, if_neg (fun hc => hg (or_comm.mp hc))]
    set a := pyStrip (pyLower s1) with ha
    set b := pyStrip (pyLower s2) with hb
    by_cases heq : a = b
    · rw [if_pos heq, if_pos (show b = a from heq.symm)]
    · rw [if_neg heq, if_neg (show ¬ b = a from fun hc => heq hc.symm)]
      by_cases hsub : List.IsInfix a b ∨ List.IsInfix b a
      · rw [if_pos hsub,
          if_pos (show List.IsInfix b a ∨ List.IsInfix a b from or_comm.mp hsub)]
        have hnum : (if a.length < b.length then a else b).length =
            (if b.length < a.length then b else a).length := by
          split_ifs <;> omega
        have hden : (if a.length < b.length then b else a).length =
            (if b.length < a.length then a else b).length := by
          split_ifs <;> omega
        rw [hnum, hden]
      · rw [if_neg hsub,
          if_neg (show ¬(List.IsInfix b a ∨ List.IsInfix a b) from
            fun hc => hsub (or_comm.mp hc))]
        rw [lev_comm a b, Nat.max_comm a.length b.length]

theorem patternPhone_comm (p1 p2 : List Char) :
    patternPhoneSimilarity p1 p2 = patternPhoneSimilarity p2 p1 := by
  unfold patternPhoneSimilarity
  dsimp only
  set a := p1.filter Char.isDigit with ha
  set b := p2.filter Char.isDigit with hb
  by_cases hg : a = [] ∨ b = []
  · rw [if_pos hg, if_pos (show b = [] ∨ a = [] from or_comm.mp hg)]
  · rw [if_neg hg, if_neg (show ¬(b = [] ∨ a = []) from fun hc => hg (or_comm.mp hc))]
    by_cases heq : a = b
    · rw [if_pos heq, if_pos (show b = a from heq.symm)]
    · rw [if_neg heq, if_neg (show ¬ b = a from fun hc => heq hc.symm)]
      by_cases hmin : 6 ≤ min a.length b.length
      · rw [if_pos hmin, if_pos (show 6 ≤ min b.length a.length by omega)]
        by_cases h6 : lastN 6 a = lastN 6 b
        · rw [if_pos h6, if_pos (show lastN 6 b = lastN 6 a from h6.symm)]
        · rw [if_neg h6, if_neg (show ¬ lastN 6 b = lastN 6 a from fun hc => h6 hc.symm)]
          by_cases h4 : lastN 4 a = lastN 4 b
          · rw [if_pos h4, if_pos (show lastN 4 b = lastN 4 a from h4.symm)]
          · rw [if_neg h4, if_neg (show ¬ lastN 4 b = lastN 4 a from fun hc => h4 hc.symm)]
      · rw [if_neg hmin, if_neg (show ¬ 6 ≤ min b.length a.length by omega)]

theorem havA_comm (lat1 lon1 lat2 lon2 : ℝ) :
    havA lat1 lon1 lat2 lon2 = havA lat2 lon2 lat1 lon1 := by
  unfold havA
  have e1 : Real.sin ((radians lat1 - radians lat2) / 2) ^ 2 =
      Real.sin ((radians lat2 - radians lat1) / 2) ^ 2 := by
    rw [show (radians lat1 - radians lat2) / 2 =
      -((radians lat2 - radians lat1) / 2) by ring, Real.sin_neg]
    ring
  have e2 : Real.sin ((radians lon1 - radians lon2) / 2) ^ 2 =
      Real.sin ((radians lon2 - radians lon1) / 2) ^ 2 := by
    rw [show (radians lon1 - radians lon2) / 2 =
      -((radians lon2 - radians lon1) / 2) by ring, Real.sin_neg]
    ring
  rw [e1, e2]
  ring

theorem haversineDistance_comm (lat1 lon1 lat2 lon2 : ℝ) :
    haversineDistance lat1 lon1 lat2 lon2 = haversineDistance lat2 lon2 lat1 lon1 := by
  unfold haversineDistance
  rw [havA_comm]

theorem chunkSim_comm (x1 x2 : List Char) (w : ℝ) :
    (if x1 ≠ [] ∧ x2 ≠ [] then
        [(((patternStringSimilarity x1 x2 : ℚ) : ℝ), w)] else [])
      = (if x2 ≠ [] ∧ x1 ≠ [] then
        [(((patternStringSimilarity x2 x1 : ℚ) : ℝ), w)] else []) := by
  by_cases hc : x1 ≠ [] ∧ x2 ≠ []
  · rw [if_pos hc, if_pos ⟨hc.2, hc.1⟩, patternSim_comm]
  · rw [if_neg hc, if_neg (fun h => hc ⟨h.2, h.1⟩)]

theorem chunkPhone_comm (x1 x2 : List Char) :
    (if x1 ≠ [] ∧ x2 ≠ [] ∧ 0 < patternPhoneSimilarity x1 x2 then
        [(((patternPhoneSimilarity x1 x2 : ℚ) : ℝ), (0.4 : ℝ))] else [])
      = (if x2 ≠ [] ∧ x1 ≠ [] ∧ 0 < patternPhoneSimilarity x2 x1 then
        [(((patternPhoneSimilarity x2 x1 : ℚ) : ℝ), (0.4 : ℝ))] else []) := by
  by_cases hc : x1 ≠ [] ∧ x2 ≠ [] ∧ 0 < patternPhoneSimilarity x1 x2
  · rw [if_pos hc, if_pos ⟨hc.2.1, hc.1, patternPhone_comm x1 x2 ▸ hc.2.2⟩, patternPhone_comm]
  · rw [if_neg hc, if_neg (fun h => hc ⟨h.2.1, h.1, patternPhone_comm x2 x1 ▸ h.2.2⟩)]

theorem propertyScores_comm (p1 p2 : Property) :
    propertyScores p1 p2 = propertyScores p2 p1 := by
  obtain ⟨n1, a1, la1, lo1, ph1, ow1, cn1⟩ := p1
  obtain ⟨n2, a2, la2, lo2, ph2, ow2, cn2⟩ := p2
  unfold propertyScores
  dsimp only
  have hname := chunkSim_comm n1 n2 (0.4 : ℝ)
  have haddr := chunkSim_comm a1 a2 (0.3 : ℝ)
  have hph := chunkPhone_comm ph1 ph2
  have howner := chunkSim_comm (if ow1 ≠ [] then ow1 else cn1)
    (if ow2 ≠ [] then ow2 else cn2) (0.4 : ℝ)
  rcases la1 with _ | u1 <;> rcases lo1 with _ | v1 <;> rcases la2 with _ | u2 <;>
    rcases lo2 with _ | v2 <;> dsimp only <;> rw [hname, haddr, hph, howner]
  have hgeo : (if u1 ≠ 0 ∧ v1 ≠ 0 ∧ u2 ≠ 0 ∧ v2 ≠ 0 then
      [(max 0 (1 - haversineDistance (u1 : ℝ) (v1 : ℝ) (u2 : ℝ) (v2 : ℝ) / 2), (0.3 : ℝ))]
      else [])
      = (if u2 ≠ 0 ∧ v2 ≠ 0 ∧ u1 ≠ 0 ∧ v1 ≠ 0 then
      [(max 0 (1 - haversineDistance (u2 : ℝ) (v2 : ℝ) (u1 : ℝ) (v1 : ℝ) / 2), (0.3 : ℝ))]
      else []) := by
    by_cases hc : u1 ≠ 0 ∧ v1 ≠ 0 ∧ u2 ≠ 0 ∧ v2 ≠ 0
    · rw [if_pos hc, if_pos ⟨hc.2.2.1, hc.2.2.2, hc.1, hc.2.1⟩, haversineDistance_comm]
    · rw [if_neg hc, if_neg (fun h => hc ⟨h.2.2.1, h.2.2.2, h.1, h.2.1⟩)]
  rw [hgeo]

theorem propertySimilarity_comm (p1 p2 : Property) :
    propertySimilarity p1 p2 = propertySimilarity p2 p1 := by
  unfold propertySimilarity
  rw [propertyScores_comm]

/-- One recorded edge of the similarity graph built by
`find_property_groups` (`src/pattern_discovery.py:22`): for index pairs
`i < j` an (undirected) edge is added when
`_calculate_property_similarity(properties[i], properties[j])` reaches the
threshold. -/
def propertyGraphEdge (θ : ℝ) (l : List Property) (i j : ℕ) : Prop :=
  j < l.length ∧ i < j ∧
    θ ≤ propertySimilarity (l.getD i emptyProperty) (l.getD j emptyProperty)

/-- Adjacency in the undirected similarity graph. -/
def propertyLinked (θ : ℝ) (l : List Property) (i j : ℕ) : Prop :=
  propertyGraphEdge θ l i j ∨ propertyGraphEdge θ l j i

/-- Two indices lie in the same connected component of the similarity
graph — i.e. the same property group computed by networkx
`connected_components` in `find_property_groups`. -/
def samePropertyGroup (θ : ℝ) (l : List Property) : ℕ → ℕ → Prop :=
  Relation.ReflTransGen (propertyLinked θ l)

theorem linked_map (θ : ℝ) (l l' : List Property) (σ : ℕ → ℕ)
    (hσlt : ∀ i, i < l.length → σ i < l'.length)
    (hσval : ∀ i, i < l.length → l'.getD (σ i) emptyProperty = l.getD i emptyProperty)
    (hinj : ∀ i j, i < l.length → j < l.length → σ i = σ j → i = j) :
    ∀ a b, propertyLinked θ l a b → propertyLinked θ l' (σ a) (σ b) := by
  have hedge : ∀ a b, propertyGraphEdge θ l a b → propertyLinked θ l' (σ a) (σ b) := by
    intro a b hab
    obtain ⟨hb, hab', hsim⟩ := hab
    have ha' : a < l.length := lt_trans hab' hb
    have hσa := hσlt a ha'
    have hσb := hσlt b hb
    have hne : σ a ≠ σ b := fun he => absurd (hinj a b ha' hb he) (Nat.ne_of_lt hab')
    have hsim' : θ ≤ propertySimilarity (l'.getD (σ a) emptyProperty)
        (l'.getD (σ b) emptyProperty) := by
      rw [hσval a ha', hσval b hb]
      exact hsim
    rcases lt_or_gt_of_ne hne with hlt | hgt
    · exact Or.inl ⟨hσb, hlt, hsim'⟩
    · exact Or.inr ⟨hσa, hgt, propertySimilarity_comm _ _ ▸ hsim'⟩
  intro a b hab
  rcases hab with h | h
  · exact hedge a b h
  · exact or_comm.mp (hedge b a h)

theorem sameGroup_map (θ : ℝ) (l l' : List Property) (σ : ℕ → ℕ)
    (hσlt : ∀ i, i < l.length → σ i < l'.length)
    (hσval : ∀ i, i < l.length → l'.getD (σ i) emptyProperty = l.getD i emptyProperty)
    (hinj : ∀ i j, i < l.length → j < l.length → σ i = σ j → i = j) :
    ∀ i j, samePropertyGroup θ l i j → samePropertyGroup θ l' (σ i) (σ j) := by
  intro i j h
  induction h with
  | refl => exact Relation.ReflTransGen.refl
  | tail _ hbc ih =>
      exact Relation.ReflTransGen.tail ih
        (linked_map θ l l' σ hσlt hσval hinj _ _ hbc)

/-- C1 amended, positive part: the partition into property groups computed
by `find_property_groups` is invariant under permutation of the input list.
If `σ` carries list `l` onto list `l'` (index bijection preserving the
stored properties), two listings end in the same group in `l` iff their
images do in `l'`. -/
theorem find_property_groups_perm_invariant (θ : ℝ) (l l' : List Property)
    (σ : ℕ → ℕ) (hlen : l'.length = l.length)
    (hσlt : ∀ i, i < l.length → σ i < l'.length)
    (hσval : ∀ i, i < l.length → l'.getD (σ i) emptyProperty = l.getD i emptyProperty)
    (hinj : ∀ i j, i < l.length → j < l.length → σ i = σ j → i = j)
    (i j : ℕ) (hi : i < l.length) (hj : j < l.length) :
    samePropertyGroup θ l i j ↔ samePropertyGroup θ l' (σ i) (σ j) := by
  have hsurj : ∀ k, k < l'.length → ∃ m, m < l.length ∧ σ m = k := by
    intro k hk
    by_contra hcon
    push_neg at hcon
    have himg : (Finset.range l.length).image σ ⊆ (Finset.range l'.length).erase k := by
      intro x hx
      rcases Finset.mem_image.mp hx with ⟨m, hm, rfl⟩
      have hm' := Finset.mem_range.mp hm
      exact Finset.mem_erase.mpr ⟨hcon m hm', Finset.mem_range.mpr (hσlt m hm')⟩
    have hcard : (Finset.range l.length).card = ((Finset.range l.length).image σ).card := by
      symm
      apply Finset.card_image_of_injOn
      intro x hx y hy hxy
      exact hinj x y (Finset.mem_range.mp hx) (Finset.mem_range.mp hy) hxy
    have hle := Finset.card_le_card himg
    rw [← hcard, Finset.card_erase_of_mem (Finset.mem_range.mpr hk)] at hle
    simp only [Finset.card_range] at hle
    omega
  classical
  set τ : ℕ → ℕ := fun k =>
    if hk : k < l'.length then Classical.choose (hsurj k hk) else 0 with hτ
  have hτspec : ∀ k, k < l'.length → τ k < l.length ∧ σ (τ k) = k := by
    intro k hk
    rw [hτ]
    simp only [dif_pos hk]
    exact Classical.choose_spec (hsurj k hk)
  have hτlt : ∀ k, k < l'.length → τ k < l.length := fun k hk => (hτspec k hk).1
  have hτval : ∀ k, k < l'.length → l.getD (τ k) emptyProperty = l'.getD k emptyProperty := by
    intro k hk
    have := hσval (τ k) (hτlt k hk)
    rw [(hτspec k hk).2] at this
    exact this.symm
  have hτinj : ∀ a b, a < l'.length → b < l'.length → τ a = τ b → a = b := by
    intro a b ha hb he
    have h1 := (hτspec a ha).2
    have h2 := (hτspec b hb).2
    rw [← h1, ← h2, he]
  have hτσ : ∀ m, m < l.length → τ (σ m) = m := by
    intro m hm
    have hσm := hσlt m hm
    have := (hτspec (σ m) hσm).2
    exact hinj _ _ (hτlt _ hσm) hm this
  constructor
  · intro h
    exact sameGroup_map θ l l' σ hσlt hσval hinj i j h
  · intro h
    have h2 := sameGroup_map θ l' l τ hτlt hτval hτinj (σ i) (σ j) h
    rwa [hτσ i hi, hτσ j hj] at h2

/-- C2: if property `i` is similar to `j` at or above the threshold and `j`
to `k`, then all three indices land in one property group of
`find_property_groups` — connectivity in the similarity graph — with no
requirement on the direct `i`–`k` similarity. -/
theorem property_groups_transitive (θ : ℝ) (l : List Property) (i j k : ℕ)
    (hi : i < l.length) (hj : j < l.length) (hk : k < l.length)
    (hij : i ≠ j) (hjk : j ≠ k)
    (h1 : θ ≤ propertySimilarity (l.getD i emptyProperty) (l.getD j emptyProperty))
    (h2 : θ ≤ propertySimilarity (l.getD j emptyProperty) (l.getD k emptyProperty)) :
    samePropertyGroup θ l i k ∧ samePropertyGroup θ l i j ∧ samePropertyGroup θ l j k := by
  have e1 : propertyLinked θ l i j := by
    rcases lt_or_gt_of_ne hij with h | h
    · exact Or.inl ⟨hj, h, h1⟩
    · exact Or.inr ⟨hi, h, propertySimilarity_comm _ _ ▸ h1⟩
  have e2 : propertyLinked θ l j k := by
    rcases lt_or_gt_of_ne hjk with h | h
    · exact Or.inl ⟨hk, h, h2⟩
    · exact Or.inr ⟨hj, h, propertySimilarity_comm _ _ ▸ h2⟩
  exact ⟨Relation.ReflTransGen.head e1 (Relation.ReflTransGen.single e2),
    Relation.ReflTransGen.single e1, Relation.ReflTransGen.single e2⟩

theorem propertySimilarity_name_only (n1 n2 : List Char) (h1 : n1 ≠ []) (h2 : n2 ≠ []) :
    propertySimilarity ⟨n1, [], none, none, [], [], []⟩ ⟨n2, [], none, none, [], [], []⟩
      = ((patternStringSimilarity n1 n2 : ℚ) : ℝ) := by
  unfold propertySimilarity propertyScores
  norm_num [h1, h2]

def propA : Property := ⟨chars "abcdefg", [], none, none, [], [], []⟩
def propB : Property := ⟨chars "abcdefghij", [], none, none, [], [], []⟩
def propC : Property := ⟨chars "cdefghij", [], none, none, [], [], []⟩

theorem patternSim_AB :
    patternStringSimilarity (chars "abcdefg") (chars "abcdefghij") = 7 / 10 := by
  unfold patternStringSimilarity
  dsimp only
  rw [if_neg (by decide : ¬(chars "abcdefg" = [] ∨ chars "abcdefghij" = []))]
  rw [show pyStrip (pyLower (chars "abcdefg")) = chars "abcdefg" from by decide]
  rw [show pyStrip (pyLower (chars "abcdefghij")) = chars "abcdefghij" from by decide]
  rw [if_neg (by decide : ¬ chars "abcdefg" = chars "abcdefghij")]
  rw [if_pos (Or.inl (by decide :
    List.IsInfix (chars "abcdefg") (chars "abcdefghij")))]
  have hlt : (chars "abcdefg").length < (chars "abcdefghij").length := by decide
  rw [if_pos hlt, if_pos hlt]
  have L1 : (chars "abcdefg").length = 7 := by decide
  have L2 : (chars "abcdefghij").length = 10 := by decide
  rw [L1, L2]
  norm_num

theorem patternSim_BC :
    patternStringSimilarity (chars "abcdefghij") (chars "cdefghij") = 8 / 10 := by
  unfold patternStringSimilarity
  dsimp only
  rw [if_neg (by decide : ¬(chars "abcdefghij" = [] ∨ chars "cdefghij" = []))]
  rw [show pyStrip (pyLower (chars "abcdefghij")) = chars "abcdefghij" from by decide]
  rw [show pyStrip (pyLower (chars "cdefghij")) = chars "cdefghij" from by decide]
  rw [if_neg (by decide : ¬ chars "abcdefghij" = chars "cdefghij")]
  rw [if_pos (Or.inr (by decide :
    List.IsInfix (chars "cdefghij") (chars "abcdefghij")))]
  have hnlt : ¬ (chars "abcdefghij").length < (chars "cdefghij").length := by decide
  rw [if_neg hnlt, if_neg hnlt]
  have L1 : (chars "cdefghij").length = 8 := by decide
  have L2 : (chars "abcdefghij").length = 10 := by decide
  rw [L1, L2]
  norm_num

theorem patternSim_AC :
    patternStringSimilarity (chars "abcdefg") (chars "cdefghij") = 3 / 8 := by
  unfold patternStringSimilarity
  dsimp only
  rw [if_neg (by decide : ¬(chars "abcdefg" = [] ∨ chars "cdefghij" = []))]
  rw [show pyStrip (pyLower (chars "abcdefg")) = chars "abcdefg" from by decide]
  rw [show pyStrip (pyLower (chars "cdefghij")) = chars "cdefghij" from by decide]
  rw [if_neg (by decide : ¬ chars "abcdefg" = chars "cdefghij")]
  rw [if_neg (by decide : ¬(List.IsInfix (chars "abcdefg") (chars "cdefghij") ∨
    List.IsInfix (chars "cdefghij") (chars "abcdefg")))]
  rw [show lev (chars "abcdefg") (chars "cdefghij") = 5 from by decide]
  rw [show max (chars "abcdefg").length (chars "cdefghij").length = 8 from by decide]
  norm_num

/-- Witness for C2: three name-only properties where A–B similarity is 0.7,
B–C is 0.8, yet A–C is only 0.375 < 0.7; all three land in one group. -/
theorem property_groups_transitive_witness :
    samePropertyGroup 0.7 [propA, propB, propC] 0 2 ∧
      propertySimilarity propA propC < 0.7 := by
  have hAC : propertySimilarity propA propC < 0.7 := by
    show propertySimilarity ⟨chars "abcdefg", [], none, none, [], [], []⟩
      ⟨chars "cdefghij", [], none, none, [], [], []⟩ < 0.7
    rw [propertySimilarity_name_only _ _ (by decide) (by decide), patternSim_AC]
    norm_num
  refine ⟨?_, hAC⟩
  have h1 : (0.7 : ℝ) ≤ propertySimilarity
      ([propA, propB, propC].getD 0 emptyProperty)
      ([propA, propB, propC].getD 1 emptyProperty) := by
    show (0.7 : ℝ) ≤ propertySimilarity ⟨chars "abcdefg", [], none, none, [], [], []⟩
      ⟨chars "abcdefghij", [], none, none, [], [], []⟩
    rw [propertySimilarity_name_only _ _ (by decide) (by decide), patternSim_AB]
    norm_num
  have h2 : (0.7 : ℝ) ≤ propertySimilarity
      ([propA, propB, propC].getD 1 emptyProperty)
      ([propA, propB, propC].getD 2 emptyProperty) := by
    show (0.7 : ℝ) ≤ propertySimilarity ⟨chars "abcdefghij", [], none, none, [], [], []⟩
      ⟨chars "cdefghij", [], none, none, [], [], []⟩
    rw [propertySimilarity_name_only _ _ (by decide) (by decide), patternSim_BC]
    norm_num
  exact (property_groups_transitive 0.7 [propA, propB, propC] 0 1 2
    (by norm_num) (by norm_num) (by norm_num) (by norm_num) (by norm_num) h1 h2).1

/-- Witness for the C1 amended theorem: swapping a two-element list through
the bijection `σ i = 1 - i` preserves the group relation. -/
theorem find_property_groups_perm_invariant_witness :
    samePropertyGroup 0.7 [propA, propB] 0 1 ↔
      samePropertyGroup 0.7 [propB, propA] 1 0 := by
  have happ := find_property_groups_perm_invariant 0.7 [propA, propB] [propB, propA]
    (fun i => 1 - i) (by norm_num) (by intro i hi; simp at hi ⊢; omega)
    (by
      intro i hi
      simp only [List.length_cons, List.length_nil] at hi
      interval_cases i <;> rfl)
    (by
      intro i j hi hj he
      simp only [List.length_cons, List.length_nil] at hi hj
      dsimp only at he
      omega)
    0 1 (by norm_num) (by norm_num)
  simpa using happ

/-! ## `_calculate_similarity` in `search_module.py` (composite match score) -/

/-- The fields of a hotel record consulted by `_calculate_similarity` in
`src/search_module.py` (lines 527–588). -/
structure SHotel where
  name : List Char
  address : List Char
  latitude : Option ℚ
  longitude : Option ℚ
  stars : Option ℚ
  priceRange : List Char
  facilities : List Char
  deriving DecidableEq

/-- The `scores` list of `_calculate_similarity`: name similarity tripled,
address and location similarity doubled, stars / price-range / facilities
un-weighted.  Each term is appended only when both sides carry the
attribute (Python truthiness). -/
noncomputable def searchScores (h1 h2 : SHotel) : List ℝ :=
  (if h1.name ≠ [] ∧ h2.name ≠ [] then
      [((searchStringSimilarity h1.name h2.name : ℚ) : ℝ) * 3] else []) ++
  (if h1.address ≠ [] ∧ h2.address ≠ [] then
      [((searchStringSimilarity h1.address h2.address : ℚ) : ℝ) * 2] else []) ++
  (match h1.latitude, h1.longitude, h2.latitude, h2.longitude with
   | some la1, some lo1, some la2, some lo2 =>
       if la1 ≠ 0 ∧ lo1 ≠ 0 ∧ la2 ≠ 0 ∧ lo2 ≠ 0 then
         [max 0 (1 - haversineDistance (la1 : ℝ) (lo1 : ℝ) (la2 : ℝ) (lo2 : ℝ) / 2) * 2]
       else []
   | _, _, _, _ => []) ++
  (match h1.stars, h2.stars with
   | some st1, some st2 =>
       if st1 ≠ 0 ∧ st2 ≠ 0 then [max 0 (1 - |(st1 : ℝ) - (st2 : ℝ)| / 5)] else []
   | _, _ => []) ++
  (if h1.priceRange ≠ [] ∧ h2.priceRange ≠ [] then
      [if h1.priceRange = h2.priceRange then (1 : ℝ) else 0.5] else []) ++
  (if h1.facilities ≠ [] ∧ h2.facilities ≠ [] then
      [((searchStringSimilarity h1.facilities h2.facilities : ℚ) : ℝ)] else [])

/-- `_calculate_similarity` from `src/search_module.py` (lines 527–588):
`sum(scores) / len(scores)` — the weighted terms are divided by the term
count, not by the total weight. -/
noncomputable def searchCalcSimilarity (h1 h2 : SHotel) : ℝ :=
  let scores := searchScores h1 h2
  if scores ≠ [] then scores.sum / (scores.length : ℝ) else 0

def shotelX : SHotel := ⟨['a'], [], none, none, none, [], []⟩

/-- C5 counterexample: `search_module._calculate_similarity` is not a
weighted average and escapes `[0,1]` — two identical hotels carrying only a
name score `1.0 * 3 / 1 = 3.0`. -/
theorem search_calculate_similarity_exceeds_unit :
    searchCalcSimilarity shotelX shotelX = 3 ∧
      ¬(searchCalcSimilarity shotelX shotelX ≤ 1) := by
  have hlev : lev (pyLower ['a']) (pyLower ['a']) = 0 := by decide
  have hsim : searchStringSimilarity ['a'] ['a'] = 1 := by
    unfold searchStringSimilarity
    dsimp only
    rw [if_neg (by decide : ¬ max (pyLower ['a']).length (pyLower ['a']).length = 0), hlev]
    norm_num
  have hval : searchCalcSimilarity shotelX shotelX = 3 := by
    unfold searchCalcSimilarity searchScores shotelX
    norm_num [hsim]
  exact ⟨hval, by rw [hval]; norm_num⟩

/-- C5 amended, positive part: `_calculate_property_similarity` in
`src/pattern_discovery.py` is a genuine weighted average — scores and
weights are collected only for attribute pairs truthy on both records
(missing data contributes neither value nor weight) — and its value always
lies in `[0,1]`. -/
theorem property_similarity_composite_in_unit_interval (p1 p2 : Property) :
    0 ≤ propertySimilarity p1 p2 ∧ propertySimilarity p1 p2 ≤ 1 :=
  propertySimilarity_bounds p1 p2

/-! ## Temporal pattern analysis (`temporal_analysis.py`)

`_analyze_temporal_patterns` (lines 190–339) filters the history by
event-type substrings and appends findings; `analyze_hotel_history`
(lines 174–185) sums severities as high = 3, medium = 2, other = 1 and maps
the sum to a level with the hardcoded thresholds 5 and 2.  Dates are
modelled as integer day numbers; `datetime.fromisoformat` on the
day-precision strings used here is total, and `(a - b).days` is exact
integer subtraction.  The `details` strings of findings are presentational
and not modelled. -/

/-- One hotel history record as consulted by `_analyze_temporal_patterns`. -/
structure HEvent where
  eventType : List Char
  oldValue : List Char
  newValue : List Char
  eventDate : ℤ
  source : List Char
  deriving DecidableEq

def defaultHEvent : HEvent := ⟨[], [], [], 0, []⟩

/-- Python `sub in s` substring test, as a Boolean. -/
def containsSub (needle hay : List Char) : Bool := decide (List.IsInfix needle hay)

/-- A finding: its `type` and `severity` fields. -/
structure TPattern where
  ptype : List Char
  severity : List Char
  deriving DecidableEq

def nameChanges (history : List HEvent) : List HEvent :=
  history.filter fun h =>
    h.eventType == chars "name_change" || containsSub (chars "name") h.eventType

def ownershipChanges (history : List HEvent) : List HEvent :=
  history.filter fun h =>
    h.eventType == chars "ownership_change" || containsSub (chars "owner") h.eventType

def statusChanges (history : List HEvent) : List HEvent :=
  history.filter fun h =>
    h.eventType == chars "legal_status_change" || containsSub (chars "status") h.eventType

def listingChanges (history : List HEvent) : List HEvent :=
  history.filter fun h =>
    h.eventType == chars "listing_change" || containsSub (chars "platform") h.eventType

def locationChanges (history : List HEvent) : List HEvent :=
  history.filter fun h =>
    h.eventType == chars "location_change" || containsSub (chars "address") h.eventType

/-- Check 1: `frequent_name_changes`, ≥ 2 name changes with first-to-last
span under 365 days (high) or 730 days (medium). -/
def namePatterns (history : List HEvent) : List TPattern :=
  let nc := nameChanges history
  if 2 ≤ nc.length then
    match nc.head?, nc.getLast? with
    | some first, some last =>
        let d := last.eventDate - first.eventDate
        if d < 365 then [⟨chars "frequent_name_changes", chars "high"⟩]
        else if d < 730 then [⟨chars "frequent_name_changes", chars "medium"⟩]
        else []
    | _, _ => []
  else []

/-- Check 2: `frequent_ownership_changes`, same windows. -/
def ownershipPatterns (history : List HEvent) : List TPattern :=
  let oc := ownershipChanges history
  if 2 ≤ oc.length then
    match oc.head?, oc.getLast? with
    | some first, some last =>
        let d := last.eventDate - first.eventDate
        if d < 365 then [⟨chars "frequent_ownership_changes", chars "high"⟩]
        else if d < 730 then [⟨chars "frequent_ownership_changes", chars "medium"⟩]
        else []
    | _, _ => []
  else []

/-- The downgrade conditions of check 3 (`temporal_analysis.py:261`):
hotel→private, hotel→residential or commercial→residential, on lowered
old/new values. -/
def downgradeCheck (e : HEvent) : Bool :=
  let old := pyLower e.oldValue
  let new := pyLower e.newValue
  (containsSub (chars "hotel") old && containsSub (chars "private") new) ||
    (containsSub (chars "hotel") old && containsSub (chars "residential") new) ||
    (containsSub (chars "commercial") old && containsSub (chars "residential") new)

/-- Check 3: one `downgrade_to_residential` (high) finding per qualifying
status change. -/
def statusPatterns (history : List HEvent) : List TPattern :=
  (statusChanges history).filterMap fun e =>
    if downgradeCheck e then some ⟨chars "downgrade_to_residential", chars "high"⟩
    else none

/-- Check 4: `official_to_private_transition` per adjacent pair of listing
changes moving from an official platform to a private rental platform. -/
def listingPatterns (history : List HEvent) : List TPattern :=
  let lc := listingChanges history
  (List.range (lc.length - 1)).filterMap fun i =>
    let oldv := pyLower (lc.getD i defaultHEvent).newValue
    let newv := pyLower (lc.getD (i + 1) defaultHEvent).newValue
    if (containsSub (chars "booking.com") oldv || containsSub (chars "expedia") oldv ||
          containsSub (chars "tripadvisor") oldv) &&
        (containsSub (chars "airbnb") newv || containsSub (chars "private") newv ||
          containsSub (chars "rental") newv)
    then some ⟨chars "official_to_private_transition", chars "high"⟩
    else none

/-- Check 5: `location_change_same_owner` (medium) when some location change
postdates the last ownership change (the loop breaks after the first). -/
def locationPatterns (history : List HEvent) : List TPattern :=
  let lc := locationChanges history
  let oc := ownershipChanges history
  if lc ≠ [] ∧ oc ≠ [] then
    match oc.getLast? with
    | some lastOwn =>
        if lc.any fun c => decide (lastOwn.eventDate < c.eventDate) then
          [⟨chars "location_change_same_owner", chars "medium"⟩]
        else []
    | none => []
  else []

/-- Check 6: `name_status_change_correlation` (high) per name change that
has a status change within 30 days (inner loop breaks at the first). -/
def comboPatterns (history : List HEvent) : List TPattern :=
  let nc := nameChanges history
  let sc := statusChanges history
  if nc ≠ [] ∧ sc ≠ [] then
    nc.filterMap fun n =>
      if sc.any fun s => decide (|n.eventDate - s.eventDate| < 30) then
        some ⟨chars "name_status_change_correlation", chars "high"⟩
      else none
  else []

/-- `_analyze_temporal_patterns` from `src/temporal_analysis.py` (lines
190–339): the six checks in order.  (Its `hotel` argument is unused by the
source and omitted here.) -/
def analyzeTemporalPatterns (history : List HEvent) : List TPattern :=
  namePatterns history ++ ownershipPatterns history ++ statusPatterns history ++
    listingPatterns history ++ locationPatterns history ++ comboPatterns history

/-- The risk aggregation of `analyze_hotel_history`
(`src/temporal_analysis.py:174`): high = +3, medium = +2, anything else
+1. -/
def temporalRiskScore (patterns : List TPattern) : ℕ :=
  (patterns.map fun p =>
    if p.severity = chars "high" then 3
    else if p.severity = chars "medium" then 2 else 1).sum

/-- The level mapping of `analyze_hotel_history`
(`src/temporal_analysis.py:185`): hardcoded thresholds 5 and 2. -/
def temporalRiskLevel (score : ℕ) : List Char :=
  if 5 ≤ score then chars "high"
  else if 2 ≤ score then chars "medium"
  else chars "low"

def commercialPrivateEvent : HEvent :=
  ⟨chars "legal_status_change", chars "commercial building", chars "private home", 0,
    chars "src"⟩

def hotelClassificationEvent : HEvent :=
  ⟨chars "classification_change", chars "3-star hotel", chars "residential apartment", 0,
    chars "src"⟩

/-- C7 counterexample: two history events whose old value contains a
hotel/commercial term and whose new value contains a residential/private
term, yet no finding at all is emitted — `commercial building → private
home` is absent from the lookup table (only hotel→private,
hotel→residential, commercial→residential are checked), and an event typed
`classification_change` is never examined because the filter only selects
event types equal to `legal_status_change` or containing `status`. -/
theorem classification_downgrade_misses_cases :
    analyzeTemporalPatterns [commercialPrivateEvent] = [] ∧
      analyzeTemporalPatterns [hotelClassificationEvent] = [] := by
  constructor <;> decide

/-- C7 amended: for every history event whose type is
`legal_status_change` or contains `status`, and whose lowered old/new
values match one of the three table entries (hotel→private,
hotel→residential, commercial→residential), the analysis emits a
`downgrade_to_residential` finding of severity `high`, and the aggregated
risk score is then at least 3 (each high finding contributes +3). -/
theorem classification_downgrade_for_status_events (history : List HEvent) (e : HEvent)
    (hmem : e ∈ history)
    (htype : e.eventType = chars "legal_status_change" ∨
      containsSub (chars "status") e.eventType = true)
    (hterm : downgradeCheck e = true) :
    (⟨chars "downgrade_to_residential", chars "high"⟩ : TPattern) ∈
        analyzeTemporalPatterns history ∧
      3 ≤ temporalRiskScore (analyzeTemporalPatterns history) := by
  have hmem2 : e ∈ statusChanges history := by
    rw [statusChanges, List.mem_filter]
    refine ⟨hmem, ?_⟩
    rcases htype with h | h
    · rw [h]
      simp
    · rw [h]
      simp
  have hmem3 : (⟨chars "downgrade_to_residential", chars "high"⟩ : TPattern) ∈
      statusPatterns history := by
    rw [statusPatterns]
    apply List.mem_filterMap.mpr
    exact ⟨e, hmem2, by rw [if_pos hterm]⟩
  have hmem4 : (⟨chars "downgrade_to_residential", chars "high"⟩ : TPattern) ∈
      analyzeTemporalPatterns history := by
    unfold analyzeTemporalPatterns
    simp only [List.mem_append]
    tauto
  refine ⟨hmem4, ?_⟩
  unfold temporalRiskScore
  have hx : (3 : ℕ) ∈ (analyzeTemporalPatterns history).map
      (fun p => if p.severity = chars "high" then 3
        else if p.severity = chars "medium" then 2 else 1) := by
    have hmap := List.mem_map_of_mem
      (fun p : TPattern => if p.severity = chars "high" then 3
        else if p.severity = chars "medium" then 2 else 1) hmem4
    simpa using hmap
  exact List.single_le_sum (fun x _ => Nat.zero_le x) 3 hx

def ownershipEvent : HEvent :=
  ⟨chars "ownership_change", chars "owner a", chars "owner b", 0, chars "src"⟩

def specDowngradeEvent : HEvent :=
  ⟨chars "legal_status_change", chars "3-star hotel", chars "residential apartment", 40,
    chars "src"⟩

/-- Witness for C7: the spec's example — classification change "3-star
hotel" → "residential apartment" 40 days after an ownership change — yields
the high finding and a risk score of exactly 3. -/
theorem classification_downgrade_for_status_events_witness :
    (⟨chars "downgrade_to_residential", chars "high"⟩ : TPattern) ∈
        analyzeTemporalPatterns [ownershipEvent, specDowngradeEvent] ∧
      3 ≤ temporalRiskScore (analyzeTemporalPatterns [ownershipEvent, specDowngradeEvent]) ∧
      temporalRiskScore (analyzeTemporalPatterns [ownershipEvent, specDowngradeEvent]) = 3 := by
  have h := classification_downgrade_for_status_events
    [ownershipEvent, specDowngradeEvent] specDowngradeEvent
    (by decide) (Or.inl rfl) (by decide)
  exact ⟨h.1, h.2, by decide⟩

/-! ### Risk-level thresholds (violation_detection.py:1047-1058, temporal_analysis.py:184-185) -/

/-- The criteria dictionary handed to `detect_unusual_clusters` and
`_analyze_hotel_cluster`: its three recognised keys, each possibly absent
(`dict.get` with defaults 3 / 100 / 3). -/
structure Criteria where
  minClusterSize : Option ℚ
  maxDistanceMeters : Option ℚ
  minRiskScore : Option ℚ
  deriving DecidableEq

/-- The default criteria installed when `detect_unusual_clusters` is called
with a falsy criteria argument. -/
def defaultCriteria : Criteria := ⟨some 3, some 100, some 3⟩

/-- The tail of `_analyze_hotel_cluster` (src/violation_detection.py:1047-1058):
drop the cluster when no patterns were found or the accumulated risk score is
below the configured `min_risk_score` (default 3); otherwise assign the
risk level with the literals 6 and 3. -/
def clusterRiskVerdict (criteria : Criteria) (patternsEmpty : Bool)
    (riskScore : ℚ) : Option (List Char) :=
  if patternsEmpty = true ∨ riskScore < criteria.minRiskScore.getD 3 then none
  else if 6 ≤ riskScore then some (chars "high")
  else if 3 ≤ riskScore then some (chars "medium")
  else some (chars "low")

def criteriaAlt : Criteria := ⟨some 3, some 100, some 1⟩

/-- C8 counterexample: two distinct configurations assign the same level
`medium` to the same score 4, because the level boundaries in
`_analyze_hotel_cluster` are the literals 6 and 3 — no configuration key
feeds them; the temporal analyser likewise maps score 4 with its own
literals 5 and 2, reading no configuration at all. -/
theorem risk_level_unchanged_by_config :
    defaultCriteria ≠ criteriaAlt ∧
      clusterRiskVerdict defaultCriteria false 4 = some (chars "medium") ∧
      clusterRiskVerdict criteriaAlt false 4 = some (chars "medium") ∧
      temporalRiskLevel 4 = chars "medium" := by
  refine ⟨by decide, ?_, ?_, by decide⟩ <;> decide

/-- C8 amended: the score-to-level boundaries are hardcoded constants —
6/3 in the cluster analysis and 5/2 in the temporal analysis — and only the
`min_risk_score` emission filter is configurable: whenever two
configurations both let a score through that filter they assign it the
identical level, with the fixed boundaries stated explicitly. -/
theorem risk_level_thresholds_hardcoded (c1 c2 : Criteria) (s : ℚ)
    (h1 : c1.minRiskScore.getD 3 ≤ s) (h2 : c2.minRiskScore.getD 3 ≤ s) :
    clusterRiskVerdict c1 false s = clusterRiskVerdict c2 false s ∧
      (6 ≤ s → clusterRiskVerdict c1 false s = some (chars "high")) ∧
      (3 ≤ s → s < 6 → clusterRiskVerdict c1 false s = some (chars "medium")) ∧
      (∀ n : ℕ, 5 ≤ n → temporalRiskLevel n = chars "high") ∧
      (∀ n : ℕ, 2 ≤ n → n < 5 → temporalRiskLevel n = chars "medium") := by
  have hcond1 : ¬(false = true ∨ s < c1.minRiskScore.getD 3) := by
    push_neg
    exact ⟨Bool.false_ne_true, h1⟩
  have hcond2 : ¬(false = true ∨ s < c2.minRiskScore.getD 3) := by
    push_neg
    exact ⟨Bool.false_ne_true, h2⟩
  unfold clusterRiskVerdict
  rw [if_neg hcond1, if_neg hcond2]
  refine ⟨rfl, fun h6 => ?_, fun h3 h6 => ?_, fun n h5 => ?_, fun n h2n h5 => ?_⟩
  · rw [if_pos h6]
  · rw [if_neg (not_le.mpr h6), if_pos h3]
  · unfold temporalRiskLevel
    rw [if_pos h5]
  · unfold temporalRiskLevel
    rw [if_neg (by omega), if_pos h2n]

/-- Witness for C8: score 4 under the default configuration and under a
configuration with min_risk_score 1 gets the same level, namely `medium`,
in both the cluster and the temporal analyser. -/
theorem risk_level_thresholds_hardcoded_witness :
    clusterRiskVerdict defaultCriteria false 4 = clusterRiskVerdict criteriaAlt false 4 ∧
      clusterRiskVerdict defaultCriteria false 4 = some (chars "medium") ∧
      temporalRiskLevel 4 = chars "medium" := by
  have h := risk_level_thresholds_hardcoded defaultCriteria criteriaAlt 4
    (by norm_num [defaultCriteria]) (by norm_num [criteriaAlt])
  exact ⟨h.1, h.2.2.1 (by norm_num) (by norm_num), h.2.2.2.2 4 (by norm_num) (by norm_num)⟩

/-! ### Distance-based clustering (violation_detection.py:800-919) -/

/-- Python truthiness of an optional numeric field: absent and 0 are falsy. -/
def truthyQ : Option ℚ → Bool
  | none => false
  | some q => decide (¬ q = 0)

def defaultDHotel : DHotel := ⟨[], none, none⟩

/-- One iteration of the inner loop of `_simple_cluster_analysis`
(src/violation_detection.py:899-913): skip already-processed indices and
the anchor itself, otherwise compute the haversine distance to hotel `j`
(propagating a domain error as `none`) and absorb the hotel into the
cluster when within `max_distance_meters`. -/
noncomputable def innerStepE (hotels : List DHotel) (maxD : ℚ) (lat1 lng1 : ℝ)
    (i : ℕ) : Option (List ℕ × List DHotel) → ℕ → Option (List ℕ × List DHotel)
  | none, _ => none
  | some (processed, cluster), j =>
    if j ∈ processed ∨ i = j then some (processed, cluster)
    else
      match haversineChecked lat1 lng1
          (((hotels.getD j defaultDHotel).latitude.getD 0 : ℚ) : ℝ)
          (((hotels.getD j defaultDHotel).longitude.getD 0 : ℚ) : ℝ) with
      | none => none
      | some d =>
        if d * 1000 ≤ ((maxD : ℚ) : ℝ) then
          some (j :: processed, cluster ++ [hotels.getD j defaultDHotel])
        else some (processed, cluster)

/-- One iteration of the outer loop of `_simple_cluster_analysis`
(src/violation_detection.py:888-917): build the cluster around hotel `i`,
then keep the analysis result only when the cluster reaches
`min_cluster_size` and `_analyze_hotel_cluster` returns a truthy value. -/
noncomputable def outerStepE {α : Type} (analyze : List DHotel → Criteria → Option α)
    (hotels : List DHotel) (criteria : Criteria) :
    Option (List ℕ × List α) → ℕ → Option (List ℕ × List α)
  | none, _ => none
  | some (processed, results), i =>
    if i ∈ processed then some (processed, results)
    else
      match (List.range hotels.length).foldl
          (innerStepE hotels (criteria.maxDistanceMeters.getD 100)
            (((hotels.getD i defaultDHotel).latitude.getD 0 : ℚ) : ℝ)
            (((hotels.getD i defaultDHotel).longitude.getD 0 : ℚ) : ℝ) i)
          (some (i :: processed, [hotels.getD i defaultDHotel])) with
      | none => none
      | some (processed2, cluster) =>
        if criteria.minClusterSize.getD 3 ≤ (cluster.length : ℚ) then
          match analyze cluster criteria with
          | none => some (processed2, results)
          | some r => some (processed2, results ++ [r])
        else some (processed2, results)

/-- `_simple_cluster_analysis` (src/violation_detection.py:874-919),
parametrised over `_analyze_hotel_cluster` (whose body is irrelevant to the
size guard); `none` models an uncaught exception. -/
noncomputable def simpleClusterAnalysis {α : Type}
    (analyze : List DHotel → Criteria → Option α)
    (hotels : List DHotel) (criteria : Criteria) : Option (List α) :=
  ((List.range hotels.length).foldl (outerStepE analyze hotels criteria)
    (some ([], []))).map Prod.snd

/-- `detect_unusual_clusters` (src/violation_detection.py:800-872) after the
hotels have been fetched: install default criteria when the argument is
falsy, keep only hotels with truthy coordinates, and enter the DBSCAN
branch only when sklearn is available and there are at least
`min_cluster_size` such hotels — otherwise fall through to
`_simple_cluster_analysis`. -/
noncomputable def detectUnusualClusters {α : Type} (sklearnAvailable : Bool)
    (dbscanBranch : List DHotel → Criteria → List α)
    (analyze : List DHotel → Criteria → Option α)
    (allHotels : List DHotel) (criteria0 : Option Criteria) : Option (List α) :=
  if sklearnAvailable = true ∧ (criteria0.getD defaultCriteria).minClusterSize.getD 3
      ≤ ((allHotels.filter fun h => truthyQ h.latitude && truthyQ h.longitude).length : ℚ) then
    some (dbscanBranch (allHotels.filter fun h => truthyQ h.latitude && truthyQ h.longitude)
      (criteria0.getD defaultCriteria))
  else
    simpleClusterAnalysis analyze
      (allHotels.filter fun h => truthyQ h.latitude && truthyQ h.longitude)
      (criteria0.getD defaultCriteria)

theorem innerStepE_step (hotels : List DHotel) (maxD : ℚ) (lat1 lng1 : ℝ) (i j : ℕ)
    (processed : List ℕ) (cluster : List DHotel) :
    ∃ p2 c2,
      innerStepE hotels maxD lat1 lng1 i (some (processed, cluster)) j = some (p2, c2) ∧
        c2.length + processed.length = p2.length + cluster.length ∧
        p2.length ≤ processed.length + (if i = j then 0 else 1) := by
  simp only [innerStepE]
  by_cases hskip : j ∈ processed ∨ i = j
  · rw [if_pos hskip]
    exact ⟨processed, cluster, rfl, by omega, by split_ifs <;> omega⟩
  · have hij : ¬ i = j := fun h => hskip (Or.inr h)
    rw [if_neg hskip, if_neg hij, haversineChecked_eq_some]
    dsimp only
    split_ifs with hd
    · refine ⟨j :: processed, cluster ++ [hotels.getD j defaultDHotel], rfl, ?_, ?_⟩
      · simp only [List.length_append, List.length_cons, List.length_nil]
        omega
      · simp only [List.length_cons]
        omega
    · exact ⟨processed, cluster, rfl, by omega, by omega⟩

theorem innerFoldE_bound (hotels : List DHotel) (maxD : ℚ) (lat1 lng1 : ℝ) (i : ℕ)
    (l : List ℕ) : ∀ (processed : List ℕ) (cluster : List DHotel),
    ∃ p2 c2,
      l.foldl (innerStepE hotels maxD lat1 lng1 i) (some (processed, cluster))
          = some (p2, c2) ∧
        c2.length + processed.length = p2.length + cluster.length ∧
        p2.length ≤ processed.length + l.countP (fun k => decide (¬ i = k)) := by
  induction l with
  | nil =>
    intro processed cluster
    exact ⟨processed, cluster, rfl, by omega, by simp⟩
  | cons j l ih =>
    intro processed cluster
    obtain ⟨p1, c1, h1, h1d, h1b⟩ := innerStepE_step hotels maxD lat1 lng1 i j processed cluster
    obtain ⟨p2, c2, h2, h2d, h2b⟩ := ih p1 c1
    refine ⟨p2, c2, ?_, by omega, ?_⟩
    · rw [List.foldl_cons, h1, h2]
    · by_cases h : i = j
      · have hc : (j :: l).countP (fun k => decide (¬ i = k))
            = l.countP (fun k => decide (¬ i = k)) := by
          rw [List.countP_cons]
          simp [h]
        rw [if_pos h] at h1b
        rw [hc]
        omega
      · have hc : (j :: l).countP (fun k => decide (¬ i = k))
            = l.countP (fun k => decide (¬ i = k)) + 1 := by
          rw [List.countP_cons]
          simp [h]
        rw [if_neg h] at h1b
        rw [hc]
        omega

theorem countP_ne_range (n i : ℕ) (hi : i < n) :
    (List.range n).countP (fun k => decide (¬ i = k)) = n - 1 := by
  induction n with
  | zero => omega
  | succ n ih =>
    rw [List.range_succ, List.countP_append]
    rcases Nat.lt_or_ge i n with h | h
    · rw [ih h]
      have hone : List.countP (fun k => decide (¬ i = k)) [n] = 1 := by
        have : i ≠ n := by omega
        simp [List.countP_cons, this]
      rw [hone]
      omega
    · have hin : i = n := by omega
      subst hin
      have h1 : (List.range i).countP (fun k => decide (¬ i = k))
          = (List.range i).length := by
        rw [List.countP_eq_length]
        intro a ha
        have := List.mem_range.mp ha
        simp only [decide_eq_true_eq]
        omega
      have h2 : List.countP (fun k => decide (¬ i = k)) [i] = 0 := by
        simp [List.countP_cons]
      rw [h1, h2, List.length_range]
      omega

theorem outerFoldE_empty {α : Type} (analyze : List DHotel → Criteria → Option α)
    (hotels : List DHotel) (criteria : Criteria)
    (hcount : (hotels.length : ℚ) < criteria.minClusterSize.getD 3)
    (l : List ℕ) (hl : ∀ k ∈ l, k < hotels.length) :
    ∀ processed : List ℕ,
      ∃ p2, l.foldl (outerStepE analyze hotels criteria) (some (processed, ([] : List α)))
        = some (p2, ([] : List α)) := by
  induction l with
  | nil =>
    intro processed
    exact ⟨processed, rfl⟩
  | cons i l ih =>
    intro processed
    have hi : i < hotels.length := hl i (List.mem_cons_self i l)
    have hl2 : ∀ k ∈ l, k < hotels.length := fun k hk => hl k (List.mem_cons_of_mem i hk)
    by_cases hmem : i ∈ processed
    · have hstep : outerStepE analyze hotels criteria (some (processed, ([] : List α))) i
          = some (processed, []) := by
        simp only [outerStepE]
        rw [if_pos hmem]
      rw [List.foldl_cons, hstep]
      exact ih hl2 processed
    · obtain ⟨p2, c2, hfold, hdiff, hbound⟩ := innerFoldE_bound hotels
        (criteria.maxDistanceMeters.getD 100)
        (((hotels.getD i defaultDHotel).latitude.getD 0 : ℚ) : ℝ)
        (((hotels.getD i defaultDHotel).longitude.getD 0 : ℚ) : ℝ) i
        (List.range hotels.length) (i :: processed) [hotels.getD i defaultDHotel]
      rw [countP_ne_range hotels.length i hi] at hbound
      simp only [List.length_cons, List.length_nil] at hdiff hbound
      have hclen : c2.length ≤ hotels.length := by omega
      have hsize : ¬ (criteria.minClusterSize.getD 3 ≤ (c2.length : ℚ)) := by
        push_neg
        calc (c2.length : ℚ) ≤ (hotels.length : ℚ) := Nat.cast_le.mpr hclen
          _ < criteria.minClusterSize.getD 3 := hcount
      have hstep : outerStepE analyze hotels criteria (some (processed, ([] : List α))) i
          = some (p2, ([] : List α)) := by
        simp only [outerStepE]
        rw [if_neg hmem, hfold]
        dsimp only
        rw [if_neg hsize]
      rw [List.foldl_cons, hstep]
      exact ih hl2 p2

/-- C9: whenever the number of hotels with truthy coordinates is below the
configured minimum cluster size (default 3), `detect_unusual_clusters`
takes the simple-clustering branch and returns the empty list without
raising an error (`some []`, never `none`), for every clustering back-end
and every cluster analyser; `_simple_cluster_analysis` itself also returns
the empty list on such input. -/
theorem clustering_degenerate_returns_empty {α : Type} (sklearnAvailable : Bool)
    (dbscanBranch : List DHotel → Criteria → List α)
    (analyze : List DHotel → Criteria → Option α)
    (allHotels : List DHotel) (criteria0 : Option Criteria)
    (hcount : ((allHotels.filter fun h => truthyQ h.latitude && truthyQ h.longitude).length : ℚ)
      < (criteria0.getD defaultCriteria).minClusterSize.getD 3) :
    detectUnusualClusters sklearnAvailable dbscanBranch analyze allHotels criteria0 = some [] ∧
      simpleClusterAnalysis analyze
        (allHotels.filter fun h => truthyQ h.latitude && truthyQ h.longitude)
        (criteria0.getD defaultCriteria) = some [] := by
  have hsimple : simpleClusterAnalysis analyze
      (allHotels.filter fun h => truthyQ h.latitude && truthyQ h.longitude)
      (criteria0.getD defaultCriteria) = some [] := by
    unfold simpleClusterAnalysis
    obtain ⟨p2, hfold⟩ := outerFoldE_empty analyze
      (allHotels.filter fun h => truthyQ h.latitude && truthyQ h.longitude)
      (criteria0.getD defaultCriteria) hcount
      (List.range (allHotels.filter fun h => truthyQ h.latitude && truthyQ h.longitude).length)
      (fun k hk => List.mem_range.mp hk) []
    rw [hfold]
    rfl
  refine ⟨?_, hsimple⟩
  unfold detectUnusualClusters
  have hcond : ¬(sklearnAvailable = true ∧ (criteria0.getD defaultCriteria).minClusterSize.getD 3
      ≤ ((allHotels.filter fun h => truthyQ h.latitude && truthyQ h.longitude).length : ℚ)) :=
    fun h => absurd h.2 (not_le.mpr hcount)
  rw [if_neg hcond]
  exact hsimple

/-- Witness for C9: a single hotel with coordinates against the default
minimum cluster size 3 yields the empty cluster list. -/
theorem clustering_degenerate_returns_empty_witness :
    detectUnusualClusters true (fun _ _ => ([] : List ℕ)) (fun _ _ => none) [hotelA] none
      = some [] := by
  have hfilter : ([hotelA].filter fun h => truthyQ h.latitude && truthyQ h.longitude)
      = [hotelA] := by decide
  have h := clustering_degenerate_returns_empty true (fun _ _ => ([] : List ℕ))
    (fun _ _ => none) [hotelA] none (by rw [hfilter]; norm_num [defaultCriteria])
  exact h.1
